import Mathlib

/-!
Shallow embedding of the continuous audio-to-storage recorder
(`recorder_module.c` / `recorder_module.h`) and proofs about it.

Bytes are modelled as `Nat` (values < 256 in practice), a file as its byte
contents together with a write cursor, and the recorder handle as a record
mirroring `struct recorder_handle_s`.  The concurrent writer task is embedded
as an explicit step function (`recorder_write_task_step`, one iteration of the
task's drain loop); whole executions are event traces interpreted by `step` /
`run`, so that interleavings of producer calls and writer-task iterations are
explicit.
-/

namespace Recorder

/-- Overwrite the prefix of `l` with `bs`, extending `l` if `bs` is longer
(the semantics of writing `bs` at position 0 of a file). -/
def overwrite : List Nat → List Nat → List Nat
  | l, [] => l
  | [], bs => bs
  | _ :: l, b :: bs => b :: overwrite l bs

/-- Write the bytes `bs` into `l` starting at position `p`, zero-filling any
gap past the end of `l` (POSIX file-write semantics at offset `p`). -/
def writeAt : List Nat → Nat → List Nat → List Nat
  | l, 0, bs => overwrite l bs
  | [], p + 1, bs => 0 :: writeAt [] p bs
  | a :: l, p + 1, bs => a :: writeAt l p bs

/-- Byte of `l` at index `k` (0 past the end, like reading a hole). -/
def byteAt : List Nat → Nat → Nat
  | [], _ => 0
  | b :: _, 0 => b
  | _ :: l, k + 1 => byteAt l k

/-- Little-endian encoding of a `u32` value (4 bytes). -/
def u32le (v : Nat) : List Nat :=
  [v % 256, v / 256 % 256, v / 65536 % 256, v / 16777216 % 256]

/-- Little-endian encoding of a `u16` value (2 bytes). -/
def u16le (v : Nat) : List Nat :=
  [v % 256, v / 256 % 256]

/-- The `u32` little-endian value stored at byte offset `p` of `l`. -/
def readU32 (l : List Nat) (p : Nat) : Nat :=
  byteAt l p + 256 * byteAt l (p + 1) + 65536 * byteAt l (p + 2) +
    16777216 * byteAt l (p + 3)

/-- An open file: its byte contents and the current write cursor (`ftell`). -/
structure FileM where
  contents : List Nat
  pos : Nat
deriving DecidableEq

/-- `fwrite` of a byte buffer at the current cursor. -/
def fwriteB (f : FileM) (bs : List Nat) : FileM :=
  { contents := writeAt f.contents f.pos bs, pos := f.pos + bs.length }

/-- `fseek(file, p, SEEK_SET)`. -/
def fseekSet (f : FileM) (p : Nat) : FileM :=
  { f with pos := p }

/-! ## Constants from `recorder_module.h` and the writer task -/

def RECORDER_SAMPLE_RATE : Nat := 24000
def RECORDER_CHANNELS : Nat := 2
def RECORDER_BITS_PER_SAMPLE : Nat := 16
def HEADER_UPDATE_INTERVAL : Nat := 32 * 1024

/-! ## Data model from `recorder_module.h` / `recorder_module.c` -/

inductive recorder_state_t
  | RECORDER_STATE_IDLE
  | RECORDER_STATE_RECORDING
  | RECORDER_STATE_STOPPING
  | RECORDER_STATE_ERROR
deriving DecidableEq

export recorder_state_t (RECORDER_STATE_IDLE RECORDER_STATE_RECORDING
  RECORDER_STATE_STOPPING RECORDER_STATE_ERROR)

inductive esp_err_t
  | ESP_OK
  | ESP_FAIL
  | ESP_ERR_INVALID_ARG
  | ESP_ERR_INVALID_STATE
deriving DecidableEq

export esp_err_t (ESP_OK ESP_FAIL ESP_ERR_INVALID_ARG ESP_ERR_INVALID_STATE)

/-- `recorder_config_t` (the fields the recorder logic reads). -/
structure recorder_config_t where
  max_file_size_bytes : Nat
  buffer_size : Nat
deriving DecidableEq

/-- `struct recorder_handle_s`.  The ring buffer is its byte content (FIFO,
front = oldest); `write_task` records whether the writer task exists. -/
structure recorder_handle_s where
  config : recorder_config_t
  state : recorder_state_t
  file : Option FileM
  current_filename : String
  bytes_written : Nat
  data_size : Nat
  ring_buffer : List Nat
  write_task : Bool
  stop_requested : Bool
deriving DecidableEq

/-! ## WAV header chunks (`create_wav_file`) -/

/-- `wav_riff_header_t` bytes: "RIFF", file_size = 0, "WAVE". -/
def wav_riff_header : List Nat :=
  [82, 73, 70, 70] ++ u32le 0 ++ [87, 65, 86, 69]

/-- `wav_fmt_chunk_t` bytes: "fmt ", size 16, PCM, channels, rate, byte rate,
block align, bits per sample. -/
def wav_fmt_chunk : List Nat :=
  [102, 109, 116, 32] ++ u32le 16 ++ u16le 1 ++ u16le RECORDER_CHANNELS ++
    u32le RECORDER_SAMPLE_RATE ++
    u32le (RECORDER_SAMPLE_RATE * RECORDER_CHANNELS * (RECORDER_BITS_PER_SAMPLE / 8)) ++
    u16le (RECORDER_CHANNELS * (RECORDER_BITS_PER_SAMPLE / 8)) ++
    u16le RECORDER_BITS_PER_SAMPLE

/-- `wav_data_chunk_t` bytes: "data", data_size = 0. -/
def wav_data_chunk : List Nat :=
  [100, 97, 116, 97] ++ u32le 0

/-- `create_wav_file`: open a fresh file, write the three header chunks,
reset `data_size`, set `bytes_written` to the header size (44). -/
def create_wav_file (h : recorder_handle_s) : recorder_handle_s :=
  let f0 : FileM := { contents := [], pos := 0 }
  let f1 := fwriteB (fwriteB (fwriteB f0 wav_riff_header) wav_fmt_chunk) wav_data_chunk
  { h with file := some f1, data_size := 0,
           bytes_written := wav_riff_header.length + wav_fmt_chunk.length +
             wav_data_chunk.length }

/-! ## Recorder operations (`recorder_module.c`) -/

/-- `recorder_start`.  `filename` stands for `generate_filename`'s result;
`createOk` / `taskOk` are the success of `create_wav_file` and `xTaskCreate`
(filesystem / RTOS outcomes external to the recorder logic). -/
def recorder_start (h : recorder_handle_s) (filename : String)
    (createOk taskOk : Bool) : esp_err_t × recorder_handle_s :=
  if h.state ≠ RECORDER_STATE_IDLE then
    (ESP_ERR_INVALID_STATE, h)
  else
    let h1 := { h with current_filename := filename }
    if !createOk then (ESP_FAIL, h1)
    else
      let h2 := create_wav_file h1
      let h3 := { h2 with stop_requested := false, state := RECORDER_STATE_RECORDING }
      if !taskOk then
        (ESP_FAIL, { h3 with file := none, state := RECORDER_STATE_IDLE })
      else
        (ESP_OK, { h3 with write_task := true })

/-- `finalize_wav_file`: patch the RIFF size (offset 4) and data size
(offset 40) fields, close the file; returns the closed file's bytes. -/
def finalize_wav_file (h : recorder_handle_s) : recorder_handle_s × Option (List Nat) :=
  match h.file with
  | none => (h, none)
  | some f =>
    let f1 := fwriteB (fseekSet f 4) (u32le (36 + h.data_size))
    let f2 := fwriteB (fseekSet f1 40) (u32le h.data_size)
    ({ h with file := none }, some f2.contents)

/-- `recorder_stop`: guard on `Recording`, signal and tear down the writer
task, drain up to `buffer_size` queued bytes into the file, finalize, reset
counters, return to `Idle`.  The third component is the finalized file. -/
def recorder_stop (h : recorder_handle_s) :
    esp_err_t × recorder_handle_s × Option (List Nat) :=
  if h.state ≠ RECORDER_STATE_RECORDING then
    (ESP_ERR_INVALID_STATE, h, none)
  else
    let h1 := { h with stop_requested := true, state := RECORDER_STATE_STOPPING,
                       write_task := false }
    let n := min h1.ring_buffer.length h1.config.buffer_size
    let h2 :=
      match h1.file with
      | some f =>
        if 0 < n then
          { h1 with file := some (fwriteB f (h1.ring_buffer.take n)),
                    data_size := h1.data_size + n,
                    ring_buffer := h1.ring_buffer.drop n }
        else h1
      | none => h1
    let fin := finalize_wav_file h2
    (ESP_OK,
      { fin.1 with state := RECORDER_STATE_IDLE, bytes_written := 0, data_size := 0 },
      fin.2)

/-- `recorder_feed_audio`.  `data = none` models a NULL pointer; the buffer's
length is the `size` argument.  The third component is the finalized file when
the max-size cap forces a synchronous auto-stop. -/
def recorder_feed_audio (h : recorder_handle_s) (data : Option (List Nat)) :
    esp_err_t × recorder_handle_s × Option (List Nat) :=
  match data with
  | none => (ESP_ERR_INVALID_ARG, h, none)
  | some bs =>
    if bs.length = 0 then (ESP_ERR_INVALID_ARG, h, none)
    else if h.state ≠ RECORDER_STATE_RECORDING then (ESP_OK, h, none)
    else if 0 < h.config.max_file_size_bytes ∧
            h.config.max_file_size_bytes < h.data_size + bs.length then
      let r := recorder_stop h
      (ESP_OK, r.2.1, r.2.2)
    else if h.ring_buffer.length + bs.length ≤ 16 * h.config.buffer_size then
      (ESP_OK, { h with ring_buffer := h.ring_buffer ++ bs }, none)
    else
      (ESP_FAIL, h, none)

/-- `recorder_get_state`. -/
def recorder_get_state (h : Option recorder_handle_s) : recorder_state_t :=
  match h with
  | none => RECORDER_STATE_ERROR
  | some h => h.state

/-- `recorder_get_bytes_written`. -/
def recorder_get_bytes_written (h : recorder_handle_s) : Nat :=
  h.bytes_written

/-- The header-patch sequence of `recorder_write_task`: save the cursor,
write `36 + data_size` at offset 4 and `data_size` at offset 40, restore
the cursor. -/
def patch_sizes (f : FileM) (ds : Nat) : FileM :=
  let current_pos := f.pos
  let f1 := fwriteB (fseekSet f 4) (u32le (36 + ds))
  let f2 := fwriteB (fseekSet f1 40) (u32le ds)
  fseekSet f2 current_pos

/-- One iteration of `recorder_write_task`'s drain loop:
receive up to `buffer_size` bytes, append them to the file, bump the
counters, and patch the header once the data written since the last patch
reaches `HEADER_UPDATE_INTERVAL`.  `last_header_update` is the task-local
variable of the same name. -/
def recorder_write_task_step (h : recorder_handle_s) (last_header_update : Nat) :
    recorder_handle_s × Nat :=
  if h.stop_requested then (h, last_header_update)
  else
    let n := min h.ring_buffer.length h.config.buffer_size
    if n = 0 then (h, last_header_update)
    else
      match h.file with
      | none => ({ h with ring_buffer := h.ring_buffer.drop n }, last_header_update)
      | some f =>
        let f1 := fwriteB f (h.ring_buffer.take n)
        let ds := h.data_size + n
        let bw := h.bytes_written + n
        if HEADER_UPDATE_INTERVAL ≤ ds - last_header_update then
          ({ h with file := some (patch_sizes f1 ds), data_size := ds,
                    bytes_written := bw, ring_buffer := h.ring_buffer.drop n }, ds)
        else
          ({ h with file := some f1, data_size := ds, bytes_written := bw,
                    ring_buffer := h.ring_buffer.drop n }, last_header_update)

/-- `recorder_audio_callback`: adapter with the `(buffer, size, context)`
signature; returns the `int` result together with the updated handle and a
possibly finalized file (from a cap-triggered auto-stop inside the feed). -/
def recorder_audio_callback (data : Option (List Nat)) (size : Int)
    (ctx : Option recorder_handle_s) :
    Int × Option recorder_handle_s × Option (List Nat) :=
  match ctx, data with
  | none, _ => (0, ctx, none)
  | some _, none => (0, ctx, none)
  | some h, some bs =>
    if size ≤ 0 then (0, some h, none)
    else if h.state = RECORDER_STATE_RECORDING then
      let r := recorder_feed_audio h (some (bs.take size.toNat))
      (0, some r.2.1, r.2.2)
    else (0, some h, none)

/-! ## Whole-system executions -/

/-- System state: the handle, the writer task's `last_header_update` local,
and the finalized files produced so far (the filesystem's view). -/
structure Sys where
  h : recorder_handle_s
  last_header_update : Nat
  closed : List (List Nat)
deriving DecidableEq

/-- The handle produced by `recorder_init` (calloc-zeroed fields, `Idle`,
empty ring buffer, no file). -/
def recorder_init (cfg : recorder_config_t) : Sys :=
  { h := { config := cfg, state := RECORDER_STATE_IDLE, file := none,
           current_filename := "", bytes_written := 0, data_size := 0,
           ring_buffer := [], write_task := false, stop_requested := false },
    last_header_update := 0, closed := [] }

/-- Events: API calls by the producer/control plane, and one writer-task
loop iteration (`task`), making the concurrent interleaving explicit. -/
inductive Ev
  | start (filename : String) (createOk taskOk : Bool)
  | stop
  | feed (data : Option (List Nat))
  | task
deriving DecidableEq

/-- Interpret one event. -/
def step (s : Sys) (e : Ev) : Sys :=
  match e with
  | .start fn c t =>
    let r := recorder_start s.h fn c t
    if r.1 = ESP_OK then { s with h := r.2, last_header_update := 0 }
    else { s with h := r.2 }
  | .stop =>
    let r := recorder_stop s.h
    { s with h := r.2.1, closed := s.closed ++ r.2.2.toList }
  | .feed d =>
    let r := recorder_feed_audio s.h d
    { s with h := r.2.1, closed := s.closed ++ r.2.2.toList }
  | .task =>
    if s.h.write_task then
      let r := recorder_write_task_step s.h s.last_header_update
      { s with h := r.1, last_header_update := r.2 }
    else s

/-- Interpret an event trace. -/
def run (s : Sys) : List Ev → Sys
  | [] => s
  | e :: es => run (step s e) es

end Recorder

namespace Recorder

/-! ## Byte-level lemmas about `overwrite`, `writeAt`, `byteAt`, `readU32` -/

theorem overwrite_nil (bs : List Nat) : overwrite [] bs = bs := by
  cases bs <;> rfl

theorem length_overwrite (l bs : List Nat) :
    (overwrite l bs).length = max l.length bs.length := by
  induction l generalizing bs with
  | nil => simp [overwrite_nil]
  | cons a l ih =>
    cases bs with
    | nil => simp [overwrite]
    | cons b bs => simp [overwrite, ih]; omega

theorem byteAt_nil (k : Nat) : byteAt [] k = 0 := by
  cases k <;> rfl

theorem byteAt_of_length_le (l : List Nat) (k : Nat) (hk : l.length ≤ k) :
    byteAt l k = 0 := by
  induction l generalizing k with
  | nil => exact byteAt_nil k
  | cons a l ih =>
    cases k with
    | zero => simp at hk
    | succ k => exact ih k (by simpa using hk)

theorem byteAt_overwrite_lt (l bs : List Nat) (k : Nat) (hk : k < bs.length) :
    byteAt (overwrite l bs) k = byteAt bs k := by
  induction l generalizing bs k with
  | nil => rw [overwrite_nil]
  | cons a l ih =>
    cases bs with
    | nil => simp at hk
    | cons b bs =>
      cases k with
      | zero => rfl
      | succ k => exact ih bs k (by simpa using hk)

theorem byteAt_overwrite_ge (l bs : List Nat) (k : Nat) (hk : bs.length ≤ k) :
    byteAt (overwrite l bs) k = byteAt l k := by
  induction l generalizing bs k with
  | nil => rw [overwrite_nil, byteAt_nil]; exact byteAt_of_length_le bs k hk
  | cons a l ih =>
    cases bs with
    | nil => rfl
    | cons b bs =>
      cases k with
      | zero => simp at hk
      | succ k => exact ih bs k (by simpa using hk)

theorem writeAt_zero (l bs : List Nat) : writeAt l 0 bs = overwrite l bs := by
  cases l <;> rfl

theorem byteAt_writeAt_lt (l bs : List Nat) (p k : Nat) (hk : k < p) :
    byteAt (writeAt l p bs) k = byteAt l k := by
  induction p generalizing l k with
  | zero => omega
  | succ p ih =>
    cases l with
    | nil =>
      cases k with
      | zero => rfl
      | succ k =>
        show byteAt (writeAt [] p bs) k = byteAt [] (k + 1)
        rw [ih [] k (by omega), byteAt_nil, byteAt_nil]
    | cons a l =>
      cases k with
      | zero => rfl
      | succ k => exact ih l k (by omega)

theorem byteAt_writeAt_ge (l bs : List Nat) (p k : Nat) (hk : p + bs.length ≤ k) :
    byteAt (writeAt l p bs) k = byteAt l k := by
  induction p generalizing l k with
  | zero => rw [writeAt_zero]; exact byteAt_overwrite_ge l bs k (by omega)
  | succ p ih =>
    cases l with
    | nil =>
      cases k with
      | zero => omega
      | succ k =>
        show byteAt (writeAt [] p bs) k = byteAt [] (k + 1)
        rw [ih [] k (by omega), byteAt_nil, byteAt_nil]
    | cons a l =>
      cases k with
      | zero => omega
      | succ k => exact ih l k (by omega)

theorem byteAt_writeAt_in (l bs : List Nat) (p i : Nat) (hi : i < bs.length) :
    byteAt (writeAt l p bs) (p + i) = byteAt bs i := by
  induction p generalizing l with
  | zero => rw [writeAt_zero]; simpa using byteAt_overwrite_lt l bs i hi
  | succ p ih =>
    have hidx : p + 1 + i = (p + i) + 1 := by omega
    cases l with
    | nil =>
      rw [hidx]
      show byteAt (writeAt [] p bs) (p + i) = byteAt bs i
      exact ih []
    | cons a l =>
      rw [hidx]
      show byteAt (writeAt l p bs) (p + i) = byteAt bs i
      exact ih l

theorem length_writeAt (l bs : List Nat) (p : Nat) :
    (writeAt l p bs).length = max l.length (p + bs.length) := by
  induction p generalizing l with
  | zero => rw [writeAt_zero]; simpa using length_overwrite l bs
  | succ p ih =>
    cases l with
    | nil =>
      show (0 :: writeAt [] p bs).length = max ([] : List Nat).length (p + 1 + bs.length)
      simp [ih]; omega
    | cons a l =>
      show (a :: writeAt l p bs).length = max (a :: l).length (p + 1 + bs.length)
      simp [ih]; omega

theorem writeAt_length_eq_append (l bs : List Nat) : writeAt l l.length bs = l ++ bs := by
  induction l with
  | nil => exact overwrite_nil bs
  | cons a l ih =>
    show a :: writeAt l l.length bs = a :: (l ++ bs)
    rw [ih]

theorem drop_overwrite_ge (l bs : List Nat) (k : Nat) (hk : bs.length ≤ k) :
    (overwrite l bs).drop k = l.drop k := by
  induction l generalizing bs k with
  | nil =>
    rw [overwrite_nil, List.drop_nil, List.drop_eq_nil_of_le hk]
  | cons a l ih =>
    cases bs with
    | nil => rfl
    | cons b bs =>
      cases k with
      | zero => simp at hk
      | succ k =>
        show (overwrite l bs).drop k = l.drop k
        exact ih bs k (by simpa using hk)

theorem drop_writeAt_ge (l bs : List Nat) (p k : Nat) (hk : p + bs.length ≤ k) :
    (writeAt l p bs).drop k = l.drop k := by
  induction p generalizing l k with
  | zero => rw [writeAt_zero]; exact drop_overwrite_ge l bs k (by omega)
  | succ p ih =>
    cases l with
    | nil =>
      cases k with
      | zero => omega
      | succ k =>
        show (writeAt [] p bs).drop k = ([] : List Nat).drop (k + 1)
        rw [ih [] k (by omega), List.drop_nil, List.drop_nil]
    | cons a l =>
      cases k with
      | zero => omega
      | succ k =>
        show (writeAt l p bs).drop k = l.drop k
        exact ih l k (by omega)

theorem length_u32le (v : Nat) : (u32le v).length = 4 := rfl

theorem readU32_writeAt_u32le (l : List Nat) (p v : Nat) :
    readU32 (writeAt l p (u32le v)) p = v % 4294967296 := by
  have h0 := byteAt_writeAt_in l (u32le v) p 0 (by simp [u32le])
  have h1 := byteAt_writeAt_in l (u32le v) p 1 (by simp [u32le])
  have h2 := byteAt_writeAt_in l (u32le v) p 2 (by simp [u32le])
  have h3 := byteAt_writeAt_in l (u32le v) p 3 (by simp [u32le])
  unfold readU32
  rw [show p + 0 = p from rfl] at h0
  rw [h0, h1, h2, h3]
  show v % 256 + 256 * (v / 256 % 256) + 65536 * (v / 65536 % 256) +
      16777216 * (v / 16777216 % 256) = v % 4294967296
  omega

theorem readU32_writeAt_of_lt (l bs : List Nat) (p q : Nat) (h : q + 4 ≤ p) :
    readU32 (writeAt l p bs) q = readU32 l q := by
  unfold readU32
  rw [byteAt_writeAt_lt l bs p q (by omega), byteAt_writeAt_lt l bs p (q + 1) (by omega),
      byteAt_writeAt_lt l bs p (q + 2) (by omega), byteAt_writeAt_lt l bs p (q + 3) (by omega)]

theorem readU32_writeAt_of_ge (l bs : List Nat) (p q : Nat) (h : p + bs.length ≤ q) :
    readU32 (writeAt l p bs) q = readU32 l q := by
  unfold readU32
  rw [byteAt_writeAt_ge l bs p q (by omega), byteAt_writeAt_ge l bs p (q + 1) (by omega),
      byteAt_writeAt_ge l bs p (q + 2) (by omega), byteAt_writeAt_ge l bs p (q + 3) (by omega)]

end Recorder

namespace Recorder

/-! ## Derived facts about the file-level operations -/

/-- Contents after patching the RIFF size field (offset 4) and the data size
field (offset 40), shared shape of `recorder_write_task`'s periodic patch and
`finalize_wav_file`. -/
def patchedContents (l : List Nat) (ds : Nat) : List Nat :=
  writeAt (writeAt l 4 (u32le (36 + ds))) 40 (u32le ds)

theorem patch_sizes_eq (f : FileM) (ds : Nat) :
    patch_sizes f ds = { contents := patchedContents f.contents ds, pos := f.pos } :=
  rfl

theorem finalize_eq (h : recorder_handle_s) (f : FileM) (hf : h.file = some f) :
    finalize_wav_file h =
      ({ h with file := none }, some (patchedContents f.contents h.data_size)) := by
  unfold finalize_wav_file
  rw [hf]
  rfl

theorem finalize_none (h : recorder_handle_s) (hf : h.file = none) :
    finalize_wav_file h = (h, none) := by
  unfold finalize_wav_file
  rw [hf]

theorem length_patchedContents (l : List Nat) (ds : Nat) (hl : 44 ≤ l.length) :
    (patchedContents l ds).length = l.length := by
  simp only [patchedContents, length_writeAt, length_u32le]
  omega

theorem drop44_patchedContents (l : List Nat) (ds : Nat) :
    (patchedContents l ds).drop 44 = l.drop 44 := by
  unfold patchedContents
  rw [drop_writeAt_ge _ _ _ _ (by simp [u32le]), drop_writeAt_ge _ _ _ _ (by simp [u32le])]

theorem readU32_patchedContents_40 (l : List Nat) (ds : Nat) :
    readU32 (patchedContents l ds) 40 = ds % 4294967296 :=
  readU32_writeAt_u32le _ 40 ds

theorem readU32_patchedContents_4 (l : List Nat) (ds : Nat) :
    readU32 (patchedContents l ds) 4 = (36 + ds) % 4294967296 := by
  unfold patchedContents
  rw [readU32_writeAt_of_lt _ _ 40 4 (by simp [u32le]), readU32_writeAt_u32le]

theorem fwriteB_append (f : FileM) (bs : List Nat) (hp : f.pos = f.contents.length) :
    fwriteB f bs = { contents := f.contents ++ bs, pos := f.pos + bs.length } := by
  simp [fwriteB, hp, writeAt_length_eq_append]

/-- The 44-byte file produced by `create_wav_file`. -/
def initialFile : FileM :=
  fwriteB (fwriteB (fwriteB ⟨[], 0⟩ wav_riff_header) wav_fmt_chunk) wav_data_chunk

theorem create_wav_file_eq (h : recorder_handle_s) :
    create_wav_file h =
      { h with file := some initialFile, data_size := 0, bytes_written := 44 } :=
  rfl

theorem initialFile_props :
    initialFile.contents.length = 44 ∧ initialFile.pos = 44 ∧
      readU32 initialFile.contents 40 = 0 ∧ initialFile.contents.drop 44 = [] := by
  decide

/-! ## Branch lemmas for the recorder operations -/

theorem recorder_start_not_idle (h : recorder_handle_s) (fn : String) (c t : Bool)
    (hst : h.state ≠ RECORDER_STATE_IDLE) :
    recorder_start h fn c t = (ESP_ERR_INVALID_STATE, h) := by
  unfold recorder_start
  rw [if_pos hst]

theorem recorder_stop_not_recording (h : recorder_handle_s)
    (hst : h.state ≠ RECORDER_STATE_RECORDING) :
    recorder_stop h = (ESP_ERR_INVALID_STATE, h, none) := by
  unfold recorder_stop
  rw [if_pos hst]

theorem feed_audio_enqueue (h : recorder_handle_s) (bs : List Nat)
    (hbs : bs ≠ []) (hst : h.state = RECORDER_STATE_RECORDING)
    (hcap : ¬(0 < h.config.max_file_size_bytes ∧
      h.config.max_file_size_bytes < h.data_size + bs.length))
    (hfit : h.ring_buffer.length + bs.length ≤ 16 * h.config.buffer_size) :
    recorder_feed_audio h (some bs) =
      (ESP_OK, { h with ring_buffer := h.ring_buffer ++ bs }, none) := by
  show (if bs.length = 0 then (ESP_ERR_INVALID_ARG, h, none)
    else if h.state ≠ RECORDER_STATE_RECORDING then (ESP_OK, h, none)
    else if 0 < h.config.max_file_size_bytes ∧
        h.config.max_file_size_bytes < h.data_size + bs.length then
      (ESP_OK, (recorder_stop h).2.1, (recorder_stop h).2.2)
    else if h.ring_buffer.length + bs.length ≤ 16 * h.config.buffer_size then
      (ESP_OK, { h with ring_buffer := h.ring_buffer ++ bs }, none)
    else (ESP_FAIL, h, none)) = _
  rw [if_neg (by simpa using hbs), if_neg (by simp [hst]), if_neg hcap, if_pos hfit]

theorem feed_audio_cap_hit (h : recorder_handle_s) (bs : List Nat)
    (hbs : bs ≠ []) (hst : h.state = RECORDER_STATE_RECORDING)
    (hcap : 0 < h.config.max_file_size_bytes ∧
      h.config.max_file_size_bytes < h.data_size + bs.length) :
    recorder_feed_audio h (some bs) =
      (ESP_OK, (recorder_stop h).2.1, (recorder_stop h).2.2) := by
  show (if bs.length = 0 then (ESP_ERR_INVALID_ARG, h, none)
    else if h.state ≠ RECORDER_STATE_RECORDING then (ESP_OK, h, none)
    else if 0 < h.config.max_file_size_bytes ∧
        h.config.max_file_size_bytes < h.data_size + bs.length then
      (ESP_OK, (recorder_stop h).2.1, (recorder_stop h).2.2)
    else if h.ring_buffer.length + bs.length ≤ 16 * h.config.buffer_size then
      (ESP_OK, { h with ring_buffer := h.ring_buffer ++ bs }, none)
    else (ESP_FAIL, h, none)) = _
  rw [if_neg (by simpa using hbs), if_neg (by simp [hst]), if_pos hcap]

theorem feed_audio_not_recording (h : recorder_handle_s) (bs : List Nat)
    (hbs : bs ≠ []) (hst : h.state ≠ RECORDER_STATE_RECORDING) :
    recorder_feed_audio h (some bs) = (ESP_OK, h, none) := by
  show (if bs.length = 0 then (ESP_ERR_INVALID_ARG, h, none)
    else if h.state ≠ RECORDER_STATE_RECORDING then (ESP_OK, h, none)
    else if 0 < h.config.max_file_size_bytes ∧
        h.config.max_file_size_bytes < h.data_size + bs.length then
      (ESP_OK, (recorder_stop h).2.1, (recorder_stop h).2.2)
    else if h.ring_buffer.length + bs.length ≤ 16 * h.config.buffer_size then
      (ESP_OK, { h with ring_buffer := h.ring_buffer ++ bs }, none)
    else (ESP_FAIL, h, none)) = _
  rw [if_neg (by simpa using hbs), if_pos hst]

/-- Successful `recorder_stop`, with the drain amount made explicit. -/
theorem recorder_stop_recording (h : recorder_handle_s) (f : FileM)
    (hst : h.state = RECORDER_STATE_RECORDING) (hf : h.file = some f)
    (hn : 0 < min h.ring_buffer.length h.config.buffer_size) :
    recorder_stop h =
      (ESP_OK,
        { h with state := RECORDER_STATE_IDLE, stop_requested := true,
                 write_task := false, file := none, bytes_written := 0, data_size := 0,
                 ring_buffer :=
                   h.ring_buffer.drop (min h.ring_buffer.length h.config.buffer_size) },
        some (patchedContents
          (writeAt f.contents f.pos
            (h.ring_buffer.take (min h.ring_buffer.length h.config.buffer_size)))
          (h.data_size + min h.ring_buffer.length h.config.buffer_size))) := by
  unfold recorder_stop
  rw [if_neg (by simp [hst])]
  dsimp only
  rw [hf]
  dsimp only
  rw [if_pos hn]
  unfold finalize_wav_file
  dsimp only
  rfl

theorem recorder_stop_recording_empty (h : recorder_handle_s) (f : FileM)
    (hst : h.state = RECORDER_STATE_RECORDING) (hf : h.file = some f)
    (hn : ¬0 < min h.ring_buffer.length h.config.buffer_size) :
    recorder_stop h =
      (ESP_OK,
        { h with state := RECORDER_STATE_IDLE, stop_requested := true,
                 write_task := false, file := none, bytes_written := 0, data_size := 0 },
        some (patchedContents f.contents h.data_size)) := by
  unfold recorder_stop
  rw [if_neg (by simp [hst])]
  dsimp only
  rw [hf]
  dsimp only
  rw [if_neg hn]
  unfold finalize_wav_file
  dsimp only
  rfl

end Recorder

namespace Recorder

theorem write_task_step_stopped (h : recorder_handle_s) (last : Nat)
    (hsr : h.stop_requested = true) :
    recorder_write_task_step h last = (h, last) := by
  unfold recorder_write_task_step
  rw [hsr, if_pos rfl]

theorem write_task_step_empty (h : recorder_handle_s) (last : Nat)
    (hsr : h.stop_requested = false)
    (hn : min h.ring_buffer.length h.config.buffer_size = 0) :
    recorder_write_task_step h last = (h, last) := by
  unfold recorder_write_task_step
  rw [hsr, if_neg (fun hc => Bool.noConfusion hc)]
  dsimp only
  rw [if_pos hn]

theorem write_task_step_nopatch (h : recorder_handle_s) (last : Nat) (f : FileM)
    (hsr : h.stop_requested = false) (hf : h.file = some f)
    (hn : ¬min h.ring_buffer.length h.config.buffer_size = 0)
    (hpatch : ¬HEADER_UPDATE_INTERVAL ≤
      h.data_size + min h.ring_buffer.length h.config.buffer_size - last) :
    recorder_write_task_step h last =
      ({ h with
          file := some (fwriteB f
            (h.ring_buffer.take (min h.ring_buffer.length h.config.buffer_size))),
          data_size := h.data_size + min h.ring_buffer.length h.config.buffer_size,
          bytes_written := h.bytes_written + min h.ring_buffer.length h.config.buffer_size,
          ring_buffer := h.ring_buffer.drop (min h.ring_buffer.length h.config.buffer_size) },
        last) := by
  unfold recorder_write_task_step
  rw [hsr, if_neg (fun hc => Bool.noConfusion hc)]
  dsimp only
  rw [if_neg hn, hf]
  dsimp only
  rw [if_neg hpatch]

theorem write_task_step_patch (h : recorder_handle_s) (last : Nat) (f : FileM)
    (hsr : h.stop_requested = false) (hf : h.file = some f)
    (hn : ¬min h.ring_buffer.length h.config.buffer_size = 0)
    (hpatch : HEADER_UPDATE_INTERVAL ≤
      h.data_size + min h.ring_buffer.length h.config.buffer_size - last) :
    recorder_write_task_step h last =
      ({ h with
          file := some (patch_sizes
            (fwriteB f (h.ring_buffer.take (min h.ring_buffer.length h.config.buffer_size)))
            (h.data_size + min h.ring_buffer.length h.config.buffer_size)),
          data_size := h.data_size + min h.ring_buffer.length h.config.buffer_size,
          bytes_written := h.bytes_written + min h.ring_buffer.length h.config.buffer_size,
          ring_buffer := h.ring_buffer.drop (min h.ring_buffer.length h.config.buffer_size) },
        h.data_size + min h.ring_buffer.length h.config.buffer_size) := by
  unfold recorder_write_task_step
  rw [hsr, if_neg (fun hc => Bool.noConfusion hc)]
  dsimp only
  rw [if_neg hn, hf]
  dsimp only
  rw [if_pos hpatch]

theorem write_task_step_nofile (h : recorder_handle_s) (last : Nat)
    (hsr : h.stop_requested = false) (hf : h.file = none)
    (hn : ¬min h.ring_buffer.length h.config.buffer_size = 0) :
    recorder_write_task_step h last =
      ({ h with ring_buffer :=
          h.ring_buffer.drop (min h.ring_buffer.length h.config.buffer_size) }, last) := by
  unfold recorder_write_task_step
  rw [hsr, if_neg (fun hc => Bool.noConfusion hc)]
  dsimp only
  rw [if_neg hn, hf]

/-! ## The configuration is never modified -/

theorem recorder_start_config (h : recorder_handle_s) (fn : String) (c t : Bool) :
    (recorder_start h fn c t).2.config = h.config := by
  unfold recorder_start create_wav_file
  repeat' (first | split | dsimp only)

theorem recorder_stop_config (h : recorder_handle_s) :
    (recorder_stop h).2.1.config = h.config := by
  unfold recorder_stop finalize_wav_file
  repeat' (first | split | dsimp only)

theorem recorder_feed_config (h : recorder_handle_s) (d : Option (List Nat)) :
    (recorder_feed_audio h d).2.1.config = h.config := by
  unfold recorder_feed_audio
  rcases d with _ | bs
  · rfl
  · dsimp only
    repeat' (first | split | dsimp only)
    all_goals first | rfl | exact recorder_stop_config h

theorem write_task_step_config (h : recorder_handle_s) (last : Nat) :
    (recorder_write_task_step h last).1.config = h.config := by
  unfold recorder_write_task_step
  repeat' (first | split | dsimp only)

theorem step_config (s : Sys) (e : Ev) : (step s e).h.config = s.h.config := by
  cases e with
  | start fn c t =>
    unfold step
    dsimp only
    split
    · exact recorder_start_config s.h fn c t
    · exact recorder_start_config s.h fn c t
  | stop => exact recorder_stop_config s.h
  | feed d => exact recorder_feed_config s.h d
  | task =>
    unfold step
    dsimp only
    split
    · exact write_task_step_config s.h s.last_header_update
    · rfl

theorem run_config (s : Sys) (evs : List Ev) : (run s evs).h.config = s.h.config := by
  induction evs generalizing s with
  | nil => rfl
  | cons e es ih => rw [run, ih, step_config]

end Recorder

namespace Recorder

/-! ## Session traces for the round-trip property -/

/-- A mid-session event is admissible for the round-trip property when it is
a writer-task iteration, or a `recorder_feed_audio` call that succeeds and
enqueues its bytes: non-empty buffer, the max-size cap is not hit, and the
ring buffer has room (no drop). -/
def midEvOk (h : recorder_handle_s) : Ev → Bool
  | .task => true
  | .feed (some bs) =>
    decide (bs ≠ []) &&
      !(decide (0 < h.config.max_file_size_bytes) &&
        decide (h.config.max_file_size_bytes < h.data_size + bs.length)) &&
      decide (h.ring_buffer.length + bs.length ≤ 16 * h.config.buffer_size)
  | _ => false

/-- All events of the trace are admissible mid-session events. -/
def midOk (s : Sys) : List Ev → Bool
  | [] => true
  | e :: es => midEvOk s.h e && midOk (step s e) es

/-- Concatenation of all buffers passed to `feed` events, in call order. -/
def fedBytes : List Ev → List Nat
  | [] => []
  | Ev.feed (some bs) :: es => bs ++ fedBytes es
  | _ :: es => fedBytes es

/-- Mid-session invariant: the recorder is recording with a live writer task,
and the file payload (bytes past offset 44) followed by the queued bytes is
exactly the byte sequence fed so far. -/
def SessInv (s : Sys) (fed : List Nat) : Prop :=
  s.h.state = RECORDER_STATE_RECORDING ∧
  s.h.stop_requested = false ∧
  s.h.write_task = true ∧
  ∃ f, s.h.file = some f ∧
    f.pos = 44 + s.h.data_size ∧
    f.contents.length = 44 + s.h.data_size ∧
    f.contents.drop 44 ++ s.h.ring_buffer = fed

theorem sessInv_start (cfg : recorder_config_t) (fn : String) :
    SessInv (step (recorder_init cfg) (Ev.start fn true true)) [] := by
  exact ⟨rfl, rfl, rfl, initialFile, rfl, rfl, rfl, rfl⟩

theorem sessInv_feed (s : Sys) (fed bs : List Nat)
    (hs : SessInv s fed) (hOk : midEvOk s.h (Ev.feed (some bs)) = true) :
    SessInv (step s (Ev.feed (some bs))) (fed ++ bs) := by
  obtain ⟨hst, hsr, hwt, f, hf, hpos, hlen, hfed⟩ := hs
  simp only [midEvOk, Bool.and_eq_true, Bool.not_eq_true', Bool.and_eq_false_iff,
    decide_eq_true_eq, decide_eq_false_iff_not] at hOk
  obtain ⟨⟨hbs, hcap⟩, hfit⟩ := hOk
  have hcap' : ¬(0 < s.h.config.max_file_size_bytes ∧
      s.h.config.max_file_size_bytes < s.h.data_size + bs.length) := by
    rcases hcap with hc | hc
    · exact fun hx => hc hx.1
    · exact fun hx => hc hx.2
  unfold step
  dsimp only
  rw [feed_audio_enqueue s.h bs hbs hst hcap' hfit]
  exact ⟨hst, hsr, hwt, f, hf, hpos, hlen, by
    dsimp only
    rw [← List.append_assoc, hfed]⟩

theorem sessInv_task (s : Sys) (fed : List Nat) (hs : SessInv s fed) :
    SessInv (step s Ev.task) fed := by
  obtain ⟨hst, hsr, hwt, f, hf, hpos, hlen, hfed⟩ := hs
  unfold step
  dsimp only
  rw [hwt, if_pos rfl]
  by_cases hn : min s.h.ring_buffer.length s.h.config.buffer_size = 0
  · rw [write_task_step_empty s.h s.last_header_update hsr hn]
    exact ⟨hst, hsr, hwt, f, hf, hpos, hlen, hfed⟩
  · have hp : f.pos = f.contents.length := by rw [hpos, hlen]
    have htake : (fwriteB f (s.h.ring_buffer.take
        (min s.h.ring_buffer.length s.h.config.buffer_size))).contents =
        f.contents ++ s.h.ring_buffer.take
          (min s.h.ring_buffer.length s.h.config.buffer_size) := by
      rw [fwriteB_append f _ hp]
    by_cases hpatch : HEADER_UPDATE_INTERVAL ≤
        s.h.data_size + min s.h.ring_buffer.length s.h.config.buffer_size -
          s.last_header_update
    · rw [write_task_step_patch s.h s.last_header_update f hsr hf hn hpatch]
      refine ⟨hst, hsr, hwt, _, rfl, ?_, ?_, ?_⟩
      · rw [patch_sizes_eq]
        dsimp only [fwriteB]
        rw [hpos]
        simp only [List.length_take]
        omega
      · rw [patch_sizes_eq]
        dsimp only
        rw [length_patchedContents _ _ (by rw [htake]; simp only [List.length_append]; omega),
          htake]
        simp only [List.length_append, List.length_take]
        omega
      · rw [patch_sizes_eq]
        dsimp only
        rw [drop44_patchedContents, htake,
          List.drop_append_eq_append_drop, Nat.sub_eq_zero_of_le (by omega),
          List.drop_zero, List.append_assoc, List.take_append_drop, hfed]
    · rw [write_task_step_nopatch s.h s.last_header_update f hsr hf hn hpatch]
      refine ⟨hst, hsr, hwt, _, rfl, ?_, ?_, ?_⟩
      · dsimp only [fwriteB]
        rw [hpos]
        simp only [List.length_take]
        omega
      · rw [htake]
        simp only [List.length_append, List.length_take]
        omega
      · rw [htake, List.drop_append_eq_append_drop, Nat.sub_eq_zero_of_le (by omega),
          List.drop_zero, List.append_assoc, List.take_append_drop, hfed]

theorem sessInv_run (s : Sys) (evs : List Ev) (fed : List Nat)
    (hs : SessInv s fed) (hOk : midOk s evs = true) :
    SessInv (run s evs) (fed ++ fedBytes evs) := by
  induction evs generalizing s fed with
  | nil => simpa [run, fedBytes] using hs
  | cons e es ih =>
    simp only [midOk, Bool.and_eq_true] at hOk
    obtain ⟨h1, h2⟩ := hOk
    cases e with
    | start fn c t => simp [midEvOk] at h1
    | stop => simp [midEvOk] at h1
    | task =>
      have hnext := sessInv_task s fed hs
      simpa [run, fedBytes] using ih (step s Ev.task) fed hnext h2
    | feed d =>
      cases d with
      | none => simp [midEvOk] at h1
      | some bs =>
        have hnext := sessInv_feed s fed bs hs h1
        have h3 := ih _ _ hnext h2
        rw [run]
        rw [fedBytes]
        rw [← List.append_assoc]
        exact h3

end Recorder

namespace Recorder

theorem sessInv_stop (s : Sys) (fed : List Nat) (hs : SessInv s fed)
    (hdrain : s.h.ring_buffer.length ≤ s.h.config.buffer_size) :
    ∃ c, (step s Ev.stop).closed = s.closed ++ [c] ∧
      readU32 c 40 = fed.length % 4294967296 ∧
      c.drop 44 = fed ∧
      c.length = 44 + fed.length := by
  obtain ⟨hst, hsr, hwt, f, hf, hpos, hlen, hfed⟩ := hs
  have hmin : min s.h.ring_buffer.length s.h.config.buffer_size =
      s.h.ring_buffer.length := Nat.min_eq_left hdrain
  have hdlen : (f.contents.drop 44).length = s.h.data_size := by
    rw [List.length_drop, hlen]
    omega
  have hfedlen : fed.length = s.h.data_size + s.h.ring_buffer.length := by
    rw [← hfed, List.length_append, hdlen]
  by_cases hn : 0 < min s.h.ring_buffer.length s.h.config.buffer_size
  · have hc_eq : patchedContents
        (writeAt f.contents f.pos (s.h.ring_buffer.take
          (min s.h.ring_buffer.length s.h.config.buffer_size)))
        (s.h.data_size + min s.h.ring_buffer.length s.h.config.buffer_size) =
        patchedContents (f.contents ++ s.h.ring_buffer)
          (s.h.data_size + s.h.ring_buffer.length) := by
      rw [hmin, List.take_length, hpos, ← hlen, writeAt_length_eq_append]
    refine ⟨patchedContents (f.contents ++ s.h.ring_buffer)
      (s.h.data_size + s.h.ring_buffer.length), ?_, ?_, ?_, ?_⟩
    · unfold step
      dsimp only
      rw [recorder_stop_recording s.h f hst hf hn]
      dsimp only
      rw [Option.toList_some, hc_eq]
    · rw [readU32_patchedContents_40, hfedlen]
    · rw [drop44_patchedContents, List.drop_append_eq_append_drop,
        Nat.sub_eq_zero_of_le (by omega), List.drop_zero, hfed]
    · rw [length_patchedContents _ _ (by simp only [List.length_append]; omega),
        List.length_append, hlen, hfedlen]
      omega
  · have hring : s.h.ring_buffer = [] := by
      rw [hmin] at hn
      exact List.eq_nil_of_length_eq_zero (by omega)
    have hfed' : f.contents.drop 44 = fed := by
      rw [← hfed, hring, List.append_nil]
    refine ⟨patchedContents f.contents s.h.data_size, ?_, ?_, ?_, ?_⟩
    · unfold step
      dsimp only
      rw [recorder_stop_recording_empty s.h f hst hf hn]
      dsimp only
      rw [Option.toList_some]
    · rw [readU32_patchedContents_40, hfedlen, hring]
      rfl
    · rw [drop44_patchedContents, hfed']
    · rw [length_patchedContents _ _ (by omega), hlen, hfedlen, hring]
      rfl

/-- Along admissible mid-session events no file is finalized: the set of
closed files does not change. -/
theorem mid_closed (s : Sys) (evs : List Ev) (fed : List Nat)
    (hs : SessInv s fed) (hOk : midOk s evs = true) :
    (run s evs).closed = s.closed := by
  induction evs generalizing s fed with
  | nil => rfl
  | cons e es ih =>
    simp only [midOk, Bool.and_eq_true] at hOk
    obtain ⟨h1, h2⟩ := hOk
    cases e with
    | start fn c t => simp [midEvOk] at h1
    | stop => simp [midEvOk] at h1
    | task =>
      have hnext := sessInv_task s fed hs
      have hcl := ih (step s Ev.task) fed hnext h2
      rw [run, hcl]
      obtain ⟨hst, hsr, hwt, f, hf, -⟩ := hs
      unfold step
      dsimp only
      rw [hwt, if_pos rfl]
    | feed d =>
      cases d with
      | none => simp [midEvOk] at h1
      | some bs =>
        have hnext := sessInv_feed s fed bs hs h1
        have hcl := ih _ _ hnext h2
        rw [run, hcl]
        obtain ⟨hst, hsr, hwt, f, hf, -⟩ := hs
        simp only [midEvOk, Bool.and_eq_true, Bool.not_eq_true', Bool.and_eq_false_iff,
          decide_eq_true_eq, decide_eq_false_iff_not] at h1
        obtain ⟨⟨hbs, hcap⟩, hfit⟩ := h1
        have hcap' : ¬(0 < s.h.config.max_file_size_bytes ∧
            s.h.config.max_file_size_bytes < s.h.data_size + bs.length) := by
          rcases hcap with hc | hc
          · exact fun hx => hc hx.1
          · exact fun hx => hc hx.2
        unfold step
        dsimp only
        rw [feed_audio_enqueue s.h bs hbs hst hcap' hfit]
        dsimp only
        rw [Option.toList_none, List.append_nil]

end Recorder

namespace Recorder

/-- **C1** (amended): in a single recording session in which every
`recorder_feed_audio` call succeeds and enqueues its bytes (no queue-full
drop, no max-size cap hit), *and* at the moment `recorder_stop` runs its
final drain at most `buffer_size` bytes remain queued (the drain receives at
most `buffer_size` bytes), with total fed length `L < 2^32`: the finalized
file's u32 little-endian data-size field at offset 40 equals `L`, and the
bytes from offset 44 are exactly the fed buffers concatenated in call
order. -/
theorem roundtrip_of_drained (cfg : recorder_config_t) (fn : String) (evs : List Ev)
    (hmid : midOk (step (recorder_init cfg) (Ev.start fn true true)) evs = true)
    (hdrain : (run (step (recorder_init cfg) (Ev.start fn true true)) evs).h.ring_buffer.length ≤
      cfg.buffer_size)
    (hfit : (fedBytes evs).length < 4294967296) :
    ∃ c, (step (run (step (recorder_init cfg) (Ev.start fn true true)) evs) Ev.stop).closed =
        [c] ∧
      readU32 c 40 = (fedBytes evs).length ∧
      c.drop 44 = fedBytes evs ∧
      c.length = 44 + (fedBytes evs).length := by
  have h0 := sessInv_start cfg fn
  have h1 := sessInv_run _ evs [] h0 hmid
  rw [List.nil_append] at h1
  have hcfg : (run (step (recorder_init cfg) (Ev.start fn true true)) evs).h.config = cfg := by
    rw [run_config, step_config]
    rfl
  have hdrain' : (run (step (recorder_init cfg) (Ev.start fn true true)) evs).h.ring_buffer.length ≤
      (run (step (recorder_init cfg) (Ev.start fn true true)) evs).h.config.buffer_size := by
    rw [hcfg]
    exact hdrain
  obtain ⟨c, hc, hr, hd, hl⟩ := sessInv_stop _ _ h1 hdrain'
  have hclosed : (run (step (recorder_init cfg) (Ev.start fn true true)) evs).closed = [] :=
    mid_closed _ evs [] h0 hmid
  refine ⟨c, ?_, ?_, hd, hl⟩
  · rw [hc, hclosed, List.nil_append]
  · rw [hr, Nat.mod_eq_of_lt hfit]

/-- **C1 counterexample**: with `buffer_size = 1`, feeding `[7, 8]` in one
successful call and stopping immediately: both fed bytes were enqueued
(`midOk` holds, `L = 2`), but the finalized file's data-size field is `1`
and its payload is `[7]` — `recorder_stop`'s single `xRingbufferReceiveUpTo`
drains at most `buffer_size` bytes, so byte `8` is lost. -/
theorem roundtrip_counterexample :
    midOk (step (recorder_init ⟨0, 1⟩) (Ev.start "f" true true))
      [Ev.feed (some [7, 8])] = true ∧
    (fedBytes [Ev.feed (some [7, 8])]).length = 2 ∧
    (step (run (step (recorder_init ⟨0, 1⟩) (Ev.start "f" true true))
        [Ev.feed (some [7, 8])]) Ev.stop).closed.map
      (fun c => (readU32 c 40, c.drop 44)) = [(1, [7])] := by
  decide

/-- Witness for C1: a concrete session (`buffer_size = 4`, feeds `[1,2]`
and `[3]` with a writer-task iteration in between) satisfying every
hypothesis of the amended round-trip theorem. -/
theorem roundtrip_of_drained_witness :
    ∃ c, (step (run (step (recorder_init ⟨0, 4⟩) (Ev.start "w" true true))
        [Ev.feed (some [1, 2]), Ev.task, Ev.feed (some [3])]) Ev.stop).closed = [c] ∧
      readU32 c 40 = (fedBytes [Ev.feed (some [1, 2]), Ev.task, Ev.feed (some [3])]).length ∧
      c.drop 44 = fedBytes [Ev.feed (some [1, 2]), Ev.task, Ev.feed (some [3])] ∧
      c.length = 44 +
        (fedBytes [Ev.feed (some [1, 2]), Ev.task, Ev.feed (some [3])]).length :=
  roundtrip_of_drained ⟨0, 4⟩ "w" [Ev.feed (some [1, 2]), Ev.task, Ev.feed (some [3])]
    (by decide) (by decide) (by decide)

end Recorder

namespace Recorder

/-! ## Remaining branch shapes of the operations -/

theorem feed_audio_empty (h : recorder_handle_s) (bs : List Nat) (hbs : bs.length = 0) :
    recorder_feed_audio h (some bs) = (ESP_ERR_INVALID_ARG, h, none) := by
  show (if bs.length = 0 then (ESP_ERR_INVALID_ARG, h, none)
    else if h.state ≠ RECORDER_STATE_RECORDING then (ESP_OK, h, none)
    else if 0 < h.config.max_file_size_bytes ∧
        h.config.max_file_size_bytes < h.data_size + bs.length then
      (ESP_OK, (recorder_stop h).2.1, (recorder_stop h).2.2)
    else if h.ring_buffer.length + bs.length ≤ 16 * h.config.buffer_size then
      (ESP_OK, { h with ring_buffer := h.ring_buffer ++ bs }, none)
    else (ESP_FAIL, h, none)) = _
  rw [if_pos hbs]

theorem feed_audio_none (h : recorder_handle_s) :
    recorder_feed_audio h none = (ESP_ERR_INVALID_ARG, h, none) := rfl

theorem feed_audio_drop (h : recorder_handle_s) (bs : List Nat)
    (hbs : bs ≠ []) (hst : h.state = RECORDER_STATE_RECORDING)
    (hcap : ¬(0 < h.config.max_file_size_bytes ∧
      h.config.max_file_size_bytes < h.data_size + bs.length))
    (hfit : ¬h.ring_buffer.length + bs.length ≤ 16 * h.config.buffer_size) :
    recorder_feed_audio h (some bs) = (ESP_FAIL, h, none) := by
  show (if bs.length = 0 then (ESP_ERR_INVALID_ARG, h, none)
    else if h.state ≠ RECORDER_STATE_RECORDING then (ESP_OK, h, none)
    else if 0 < h.config.max_file_size_bytes ∧
        h.config.max_file_size_bytes < h.data_size + bs.length then
      (ESP_OK, (recorder_stop h).2.1, (recorder_stop h).2.2)
    else if h.ring_buffer.length + bs.length ≤ 16 * h.config.buffer_size then
      (ESP_OK, { h with ring_buffer := h.ring_buffer ++ bs }, none)
    else (ESP_FAIL, h, none)) = _
  rw [if_neg (by simpa using hbs), if_neg (by simp [hst]), if_neg hcap, if_neg hfit]

theorem recorder_start_create_fail (h : recorder_handle_s) (fn : String) (t : Bool)
    (hst : h.state = RECORDER_STATE_IDLE) :
    recorder_start h fn false t = (ESP_FAIL, { h with current_filename := fn }) := by
  unfold recorder_start
  rw [if_neg (by simp [hst])]
  rfl

theorem recorder_start_task_fail (h : recorder_handle_s) (fn : String)
    (hst : h.state = RECORDER_STATE_IDLE) :
    recorder_start h fn true false =
      (ESP_FAIL, { h with current_filename := fn,
                          file := none,
                          data_size := 0,
                          bytes_written := 44,
                          stop_requested := false,
                          state := RECORDER_STATE_IDLE }) := by
  unfold recorder_start create_wav_file
  rw [if_neg (by simp [hst])]
  rfl

theorem recorder_start_ok (h : recorder_handle_s) (fn : String)
    (hst : h.state = RECORDER_STATE_IDLE) :
    recorder_start h fn true true =
      (ESP_OK, { h with current_filename := fn,
                        file := some initialFile,
                        data_size := 0,
                        bytes_written := 44,
                        stop_requested := false,
                        state := RECORDER_STATE_RECORDING,
                        write_task := true }) := by
  unfold recorder_start create_wav_file
  rw [if_neg (by simp [hst])]
  rfl

/-! ## Reachability invariant: open and closed files never overstate -/

/-- Per-handle safety invariant: an `Idle` recorder has no open file, a
`Recording` recorder has one, and any open file's byte length and write
cursor equal `44 + data_size` while its data-size field (offset 40) never
exceeds `data_size`. -/
def HInv (h : recorder_handle_s) : Prop :=
  (h.state = RECORDER_STATE_IDLE → h.file = none) ∧
  (h.state = RECORDER_STATE_RECORDING → h.file.isSome) ∧
  ∀ f, h.file = some f →
    f.contents.length = 44 + h.data_size ∧
    f.pos = 44 + h.data_size ∧
    readU32 f.contents 40 ≤ h.data_size

/-- A finalized file carries at least the 44-byte header and its data-size
field does not overstate its payload. -/
def ClosedInv (c : List Nat) : Prop :=
  44 ≤ c.length ∧ readU32 c 40 ≤ c.length - 44

/-- System-wide safety invariant. -/
def SInv (s : Sys) : Prop :=
  HInv s.h ∧ ∀ c ∈ s.closed, ClosedInv c

theorem hInv_init (cfg : recorder_config_t) : HInv (recorder_init cfg).h :=
  ⟨fun _ => rfl, fun hr => recorder_state_t.noConfusion hr,
   fun _ hf => Option.noConfusion hf⟩

theorem hInv_start (h : recorder_handle_s) (fn : String) (c t : Bool)
    (hi : HInv h) : HInv (recorder_start h fn c t).2 := by
  by_cases hst : h.state = RECORDER_STATE_IDLE
  · cases c with
    | false =>
      rw [recorder_start_create_fail h fn t hst]
      refine ⟨fun _ => hi.1 hst, fun hr => ?_, fun f hf => ?_⟩
      · dsimp only at hr
        rw [hst] at hr
        exact recorder_state_t.noConfusion hr
      · dsimp only at hf
        rw [hi.1 hst] at hf
        exact Option.noConfusion hf
    | true =>
      cases t with
      | false =>
        rw [recorder_start_task_fail h fn hst]
        refine ⟨fun _ => rfl, fun hr => ?_, fun f hf => ?_⟩
        · dsimp only at hr
          exact recorder_state_t.noConfusion hr
        · dsimp only at hf
          exact Option.noConfusion hf
      | true =>
        rw [recorder_start_ok h fn hst]
        refine ⟨fun hx => ?_, fun _ => rfl, fun f hf => ?_⟩
        · dsimp only at hx
          exact recorder_state_t.noConfusion hx
        · dsimp only at hf ⊢
          have hfe : f = initialFile := by
            injection hf with hf
            exact hf.symm
          subst hfe
          refine ⟨by decide, rfl, by decide⟩
  · rw [recorder_start_not_idle h fn c t hst]
    exact hi

theorem hInv_stop (h : recorder_handle_s) (hi : HInv h) :
    HInv (recorder_stop h).2.1 ∧
      ∀ c, (recorder_stop h).2.2 = some c → ClosedInv c := by
  by_cases hst : h.state = RECORDER_STATE_RECORDING
  · obtain ⟨f, hf⟩ := Option.isSome_iff_exists.mp (hi.2.1 hst)
    obtain ⟨hlen, hpos, hfield⟩ := hi.2.2 f hf
    by_cases hn : 0 < min h.ring_buffer.length h.config.buffer_size
    · rw [recorder_stop_recording h f hst hf hn]
      refine ⟨⟨fun _ => rfl, fun hr => ?_, fun g hg => ?_⟩, fun cl hc => ?_⟩
      · dsimp only at hr
        exact recorder_state_t.noConfusion hr
      · dsimp only at hg
        exact Option.noConfusion hg
      · dsimp only at hc
        have hceq : cl = patchedContents
            (writeAt f.contents f.pos
              (h.ring_buffer.take (min h.ring_buffer.length h.config.buffer_size)))
            (h.data_size + min h.ring_buffer.length h.config.buffer_size) := by
          injection hc with hc
          exact hc.symm
        subst hceq
        have hwlen : (writeAt f.contents f.pos
            (h.ring_buffer.take (min h.ring_buffer.length h.config.buffer_size))).length =
            44 + h.data_size + min h.ring_buffer.length h.config.buffer_size := by
          rw [length_writeAt, List.length_take, hpos, hlen]
          have hml : min h.ring_buffer.length h.config.buffer_size ≤
              h.ring_buffer.length := Nat.min_le_left _ _
          omega
        constructor
        · rw [length_patchedContents _ _ (by omega)]
          omega
        · rw [length_patchedContents _ _ (by omega), readU32_patchedContents_40, hwlen]
          have hm := Nat.mod_le
            (h.data_size + min h.ring_buffer.length h.config.buffer_size) 4294967296
          omega
    · rw [recorder_stop_recording_empty h f hst hf hn]
      refine ⟨⟨fun _ => rfl, fun hr => ?_, fun g hg => ?_⟩, fun cl hc => ?_⟩
      · dsimp only at hr
        exact recorder_state_t.noConfusion hr
      · dsimp only at hg
        exact Option.noConfusion hg
      · dsimp only at hc
        have hceq : cl = patchedContents f.contents h.data_size := by
          injection hc with hc
          exact hc.symm
        subst hceq
        constructor
        · rw [length_patchedContents _ _ (by omega)]
          omega
        · rw [length_patchedContents _ _ (by omega), readU32_patchedContents_40, hlen]
          have hm := Nat.mod_le h.data_size 4294967296
          omega
  · rw [recorder_stop_not_recording h hst]
    exact ⟨hi, fun cl hc => Option.noConfusion hc⟩

end Recorder

namespace Recorder

theorem hInv_feed (h : recorder_handle_s) (d : Option (List Nat)) (hi : HInv h) :
    HInv (recorder_feed_audio h d).2.1 ∧
      ∀ c, (recorder_feed_audio h d).2.2 = some c → ClosedInv c := by
  rcases d with _ | bs
  · rw [feed_audio_none]
    exact ⟨hi, fun c hc => Option.noConfusion hc⟩
  · by_cases hbs : bs.length = 0
    · rw [feed_audio_empty h bs hbs]
      exact ⟨hi, fun c hc => Option.noConfusion hc⟩
    · have hbs' : bs ≠ [] := fun hx => hbs (by rw [hx]; rfl)
      by_cases hst : h.state = RECORDER_STATE_RECORDING
      · by_cases hcap : 0 < h.config.max_file_size_bytes ∧
            h.config.max_file_size_bytes < h.data_size + bs.length
        · rw [feed_audio_cap_hit h bs hbs' hst hcap]
          exact hInv_stop h hi
        · by_cases hfit : h.ring_buffer.length + bs.length ≤ 16 * h.config.buffer_size
          · rw [feed_audio_enqueue h bs hbs' hst hcap hfit]
            refine ⟨⟨fun hx => ?_, fun _ => hi.2.1 hst, fun f hf => hi.2.2 f hf⟩,
              fun c hc => Option.noConfusion hc⟩
            dsimp only at hx
            rw [hst] at hx
            exact recorder_state_t.noConfusion hx
          · rw [feed_audio_drop h bs hbs' hst hcap hfit]
            exact ⟨hi, fun c hc => Option.noConfusion hc⟩
      · rw [feed_audio_not_recording h bs hbs' hst]
        exact ⟨hi, fun c hc => Option.noConfusion hc⟩

theorem hInv_task (h : recorder_handle_s) (last : Nat) (hi : HInv h) :
    HInv (recorder_write_task_step h last).1 := by
  by_cases hsr : h.stop_requested = true
  · rw [write_task_step_stopped h last hsr]
    exact hi
  · have hsr' : h.stop_requested = false := by
      cases hrb : h.stop_requested
      · rfl
      · exact absurd hrb hsr
    by_cases hn : min h.ring_buffer.length h.config.buffer_size = 0
    · rw [write_task_step_empty h last hsr' hn]
      exact hi
    · rcases hfo : h.file with _ | f
      · rw [write_task_step_nofile h last hsr' hfo hn]
        refine ⟨fun _ => hfo, fun hr => hi.2.1 hr, fun g hg => ?_⟩
        dsimp only at hg
        rw [hfo] at hg
        exact Option.noConfusion hg
      · obtain ⟨hlen, hpos, hfield⟩ := hi.2.2 f hfo
        have hp : f.pos = f.contents.length := by rw [hpos, hlen]
        have hnlen : (h.ring_buffer.take
            (min h.ring_buffer.length h.config.buffer_size)).length =
            min h.ring_buffer.length h.config.buffer_size := by
          rw [List.length_take]
          have := Nat.min_le_left h.ring_buffer.length h.config.buffer_size
          omega
        have hwlen : (fwriteB f (h.ring_buffer.take
            (min h.ring_buffer.length h.config.buffer_size))).contents.length =
            44 + h.data_size + min h.ring_buffer.length h.config.buffer_size := by
          rw [fwriteB_append f _ hp]
          dsimp only
          rw [List.length_append, hnlen, hlen]
        have hwpos : (fwriteB f (h.ring_buffer.take
            (min h.ring_buffer.length h.config.buffer_size))).pos =
            44 + h.data_size + min h.ring_buffer.length h.config.buffer_size := by
          dsimp only [fwriteB]
          rw [hnlen, hpos]
        have hwfield : readU32 (fwriteB f (h.ring_buffer.take
            (min h.ring_buffer.length h.config.buffer_size))).contents 40 ≤
            h.data_size := by
          dsimp only [fwriteB]
          rw [readU32_writeAt_of_lt _ _ _ _ (by omega)]
          exact hfield
        by_cases hpatch : HEADER_UPDATE_INTERVAL ≤
            h.data_size + min h.ring_buffer.length h.config.buffer_size - last
        · rw [write_task_step_patch h last f hsr' hfo hn hpatch]
          refine ⟨fun hx => by rw [hi.1 hx] at hfo; exact Option.noConfusion hfo,
            fun _ => rfl, fun g hg => ?_⟩
          dsimp only at hg ⊢
          have hge : g = patch_sizes (fwriteB f (h.ring_buffer.take
              (min h.ring_buffer.length h.config.buffer_size)))
              (h.data_size + min h.ring_buffer.length h.config.buffer_size) := by
            injection hg with hg
            exact hg.symm
          subst hge
          rw [patch_sizes_eq]
          refine ⟨?_, ?_, ?_⟩
          · dsimp only
            rw [length_patchedContents _ _ (by omega), hwlen]
            omega
          · dsimp only
            rw [hwpos]
            omega
          · dsimp only
            rw [readU32_patchedContents_40]
            exact Nat.mod_le _ _
        · rw [write_task_step_nopatch h last f hsr' hfo hn hpatch]
          refine ⟨fun hx => by rw [hi.1 hx] at hfo; exact Option.noConfusion hfo,
            fun _ => rfl, fun g hg => ?_⟩
          dsimp only at hg ⊢
          have hge : g = fwriteB f (h.ring_buffer.take
              (min h.ring_buffer.length h.config.buffer_size)) := by
            injection hg with hg
            exact hg.symm
          subst hge
          refine ⟨by rw [hwlen]; omega, by rw [hwpos]; omega, ?_⟩
          have := hwfield
          omega

theorem sInv_init (cfg : recorder_config_t) : SInv (recorder_init cfg) :=
  ⟨hInv_init cfg, fun c hc => absurd hc (List.not_mem_nil c)⟩

theorem sInv_step (s : Sys) (e : Ev) (hs : SInv s) : SInv (step s e) := by
  obtain ⟨hh, hcl⟩ := hs
  cases e with
  | start fn c t =>
    unfold step
    dsimp only
    split
    · exact ⟨hInv_start s.h fn c t hh, hcl⟩
    · exact ⟨hInv_start s.h fn c t hh, hcl⟩
  | stop =>
    unfold step
    dsimp only
    refine ⟨(hInv_stop s.h hh).1, fun c hc => ?_⟩
    rw [List.mem_append] at hc
    rcases hc with hc | hc
    · exact hcl c hc
    · rcases ho : (recorder_stop s.h).2.2 with _ | cl
      · rw [ho] at hc
        exact absurd hc (List.not_mem_nil c)
      · rw [ho] at hc
        simp only [Option.toList_some, List.mem_singleton] at hc
        subst hc
        exact (hInv_stop s.h hh).2 c ho
  | feed d =>
    unfold step
    dsimp only
    refine ⟨(hInv_feed s.h d hh).1, fun c hc => ?_⟩
    rw [List.mem_append] at hc
    rcases hc with hc | hc
    · exact hcl c hc
    · rcases ho : (recorder_feed_audio s.h d).2.2 with _ | cl
      · rw [ho] at hc
        exact absurd hc (List.not_mem_nil c)
      · rw [ho] at hc
        simp only [Option.toList_some, List.mem_singleton] at hc
        subst hc
        exact (hInv_feed s.h d hh).2 c ho
  | task =>
    unfold step
    dsimp only
    split
    · exact ⟨hInv_task s.h s.last_header_update hh, hcl⟩
    · exact ⟨hh, hcl⟩

theorem sInv_run (s : Sys) (evs : List Ev) (hs : SInv s) : SInv (run s evs) := by
  induction evs generalizing s with
  | nil => exact hs
  | cons e es ih => exact ih _ (sInv_step s e hs)

end Recorder

namespace Recorder

/-- **C2**: in every reachable system state — in particular immediately
after each point where the data-size field at offset 40 is written (the
writer task's periodic patch and the finalize step of `recorder_stop`) —
the u32 value stored at offset 40 of the session file, and of every
finalized file, is at most the number of payload bytes actually present
after offset 44: the on-disk header never overstates the payload. -/
theorem header_never_overstates (cfg : recorder_config_t) (evs : List Ev) :
    (∀ f, (run (recorder_init cfg) evs).h.file = some f →
      44 ≤ f.contents.length ∧
      readU32 f.contents 40 ≤ f.contents.length - 44) ∧
    ∀ c ∈ (run (recorder_init cfg) evs).closed,
      44 ≤ c.length ∧ readU32 c 40 ≤ c.length - 44 := by
  have hs := sInv_run (recorder_init cfg) evs (sInv_init cfg)
  obtain ⟨⟨-, -, hfile⟩, hcl⟩ := hs
  refine ⟨fun f hf => ?_, fun c hc => hcl c hc⟩
  obtain ⟨hlen, -, hfield⟩ := hfile f hf
  exact ⟨by omega, by omega⟩

/-- Witness for C2: a session file right after `recorder_start`, and a
finalized file produced by a session that fed one byte. -/
theorem header_never_overstates_witness :
    (44 ≤ initialFile.contents.length ∧
      readU32 initialFile.contents 40 ≤ initialFile.contents.length - 44) ∧
    (44 ≤ (patchedContents (initialFile.contents ++ [5]) 1).length ∧
      readU32 (patchedContents (initialFile.contents ++ [5]) 1) 40 ≤
        (patchedContents (initialFile.contents ++ [5]) 1).length - 44) :=
  ⟨(header_never_overstates ⟨0, 4⟩ [Ev.start "a" true true]).1 initialFile rfl,
   (header_never_overstates ⟨0, 4⟩ [Ev.start "a" true true, Ev.feed (some [5]), Ev.stop]).2
     (patchedContents (initialFile.contents ++ [5]) 1) (by decide)⟩

/-- **C4** (amended): in every reachable state with `state = Idle` the
session file handle is closed (`file = none`); and a `recorder_stop` issued
in a reachable `Recording` state empties the queue provided at most
`buffer_size` bytes are queued at that moment (the final drain receives at
most `buffer_size` bytes, so with more queued the recorder can reach `Idle`
with a non-empty queue). -/
theorem idle_state_invariant (cfg : recorder_config_t) (evs : List Ev) :
    ((run (recorder_init cfg) evs).h.state = RECORDER_STATE_IDLE →
      (run (recorder_init cfg) evs).h.file = none) ∧
    ((run (recorder_init cfg) evs).h.state = RECORDER_STATE_RECORDING →
      (run (recorder_init cfg) evs).h.ring_buffer.length ≤ cfg.buffer_size →
      (recorder_stop (run (recorder_init cfg) evs).h).2.1.state =
        RECORDER_STATE_IDLE ∧
      (recorder_stop (run (recorder_init cfg) evs).h).2.1.file = none ∧
      (recorder_stop (run (recorder_init cfg) evs).h).2.1.ring_buffer = []) := by
  have hs := sInv_run (recorder_init cfg) evs (sInv_init cfg)
  obtain ⟨⟨hidle, hrec, -⟩, -⟩ := hs
  refine ⟨hidle, fun hst hdr => ?_⟩
  obtain ⟨f, hf⟩ := Option.isSome_iff_exists.mp (hrec hst)
  have hcfg : (run (recorder_init cfg) evs).h.config = cfg := by
    rw [run_config]
    rfl
  have hdr' : (run (recorder_init cfg) evs).h.ring_buffer.length ≤
      (run (recorder_init cfg) evs).h.config.buffer_size := by
    rw [hcfg]
    exact hdr
  have hmin : min (run (recorder_init cfg) evs).h.ring_buffer.length
      (run (recorder_init cfg) evs).h.config.buffer_size =
      (run (recorder_init cfg) evs).h.ring_buffer.length := Nat.min_eq_left hdr'
  by_cases hn : 0 < min (run (recorder_init cfg) evs).h.ring_buffer.length
      (run (recorder_init cfg) evs).h.config.buffer_size
  · rw [recorder_stop_recording _ f hst hf hn]
    refine ⟨rfl, rfl, ?_⟩
    dsimp only
    rw [hmin, List.drop_length]
  · rw [recorder_stop_recording_empty _ f hst hf hn]
    refine ⟨rfl, rfl, ?_⟩
    dsimp only
    rw [hmin] at hn
    exact List.eq_nil_of_length_eq_zero (by omega)

/-- **C4 counterexample**: with `buffer_size = 1`, feed two bytes and stop:
the recorder reaches `Idle` with byte `8` still in the queue — the final
drain of `recorder_stop` receives at most `buffer_size` bytes. -/
theorem idle_state_counterexample :
    (run (recorder_init ⟨0, 1⟩)
      [Ev.start "f" true true, Ev.feed (some [7, 8]), Ev.stop]).h.state =
        RECORDER_STATE_IDLE ∧
    (run (recorder_init ⟨0, 1⟩)
      [Ev.start "f" true true, Ev.feed (some [7, 8]), Ev.stop]).h.ring_buffer = [8] ∧
    (run (recorder_init ⟨0, 1⟩)
      [Ev.start "f" true true, Ev.feed (some [7, 8]), Ev.stop]).h.ring_buffer ≠ [] := by
  decide

/-- Witness for C4: after a failed and a successful start plus a feed of two
bytes (`buffer_size = 4`), the `Idle → file = none` part at an `Idle` state
and the drained-stop part at a `Recording` state. -/
theorem idle_state_invariant_witness :
    (run (recorder_init ⟨0, 4⟩)
      [Ev.start "a" true false, Ev.start "b" true true, Ev.feed (some [1, 2]),
       Ev.stop]).h.file = none ∧
    ((recorder_stop (run (recorder_init ⟨0, 4⟩)
        [Ev.start "b" true true, Ev.feed (some [1, 2])]).h).2.1.state =
      RECORDER_STATE_IDLE ∧
      (recorder_stop (run (recorder_init ⟨0, 4⟩)
        [Ev.start "b" true true, Ev.feed (some [1, 2])]).h).2.1.file = none ∧
      (recorder_stop (run (recorder_init ⟨0, 4⟩)
        [Ev.start "b" true true, Ev.feed (some [1, 2])]).h).2.1.ring_buffer = []) :=
  ⟨(idle_state_invariant ⟨0, 4⟩
      [Ev.start "a" true false, Ev.start "b" true true, Ev.feed (some [1, 2]),
       Ev.stop]).1 (by decide),
   (idle_state_invariant ⟨0, 4⟩
      [Ev.start "b" true true, Ev.feed (some [1, 2])]).2 (by decide) (by decide)⟩

end Recorder

namespace Recorder

/-- **C5**: every header patch writes the u32 value `36 + data_size` at file
offset 4 and the u32 value `data_size` at offset 40 (both fields fit by
hypothesis), and the mid-recording patch of the writer task
(`patch_sizes`) restores the write cursor to its pre-patch position, so the
file position of the next payload write is identical with or without the
patch; the finalize-step patch writes the same two fields. -/
theorem patch_sizes_spec (f : FileM) (ds : Nat) (hds : 36 + ds < 4294967296) :
    readU32 (patch_sizes f ds).contents 4 = 36 + ds ∧
    readU32 (patch_sizes f ds).contents 40 = ds ∧
    (patch_sizes f ds).pos = f.pos ∧
    (∀ bs, (fwriteB (patch_sizes f ds) bs).pos = (fwriteB f bs).pos) ∧
    ∀ (h : recorder_handle_s) (c : List Nat), h.file = some f → h.data_size = ds →
      (finalize_wav_file h).2 = some c →
      readU32 c 4 = 36 + ds ∧ readU32 c 40 = ds := by
  have h4 : readU32 (patchedContents f.contents ds) 4 = 36 + ds := by
    rw [readU32_patchedContents_4, Nat.mod_eq_of_lt hds]
  have h40 : readU32 (patchedContents f.contents ds) 40 = ds := by
    rw [readU32_patchedContents_40, Nat.mod_eq_of_lt (by omega)]
  refine ⟨?_, ?_, ?_, ?_, ?_⟩
  · rw [patch_sizes_eq]
    exact h4
  · rw [patch_sizes_eq]
    exact h40
  · rw [patch_sizes_eq]
  · intro bs
    rw [patch_sizes_eq]
    rfl
  · intro h c hf hds' hc
    rw [finalize_eq h f hf, hds'] at hc
    have hceq : c = patchedContents f.contents ds := by
      injection hc with hc
      exact hc.symm
    subst hceq
    exact ⟨h4, h40⟩

/-- Witness for C5: patching a fresh 44-byte header file with
`data_size = 3`. -/
theorem patch_sizes_spec_witness :
    readU32 (patch_sizes initialFile 3).contents 4 = 36 + 3 ∧
    readU32 (patch_sizes initialFile 3).contents 40 = 3 ∧
    (patch_sizes initialFile 3).pos = initialFile.pos ∧
    (∀ bs, (fwriteB (patch_sizes initialFile 3) bs).pos = (fwriteB initialFile bs).pos) ∧
    ∀ (h : recorder_handle_s) (c : List Nat), h.file = some initialFile →
      h.data_size = 3 → (finalize_wav_file h).2 = some c →
      readU32 c 4 = 36 + 3 ∧ readU32 c 40 = 3 :=
  patch_sizes_spec initialFile 3 (by decide)

/-- **C6**: `recorder_start` called when `state ≠ Idle` and `recorder_stop`
called when `state ≠ Recording` both return `ESP_ERR_INVALID_STATE` and
return the handle completely unchanged (state, filename, file handle,
counters, queue); the rejected stop finalizes no file (the filesystem is
untouched). -/
theorem wrong_state_guard :
    (∀ (h : recorder_handle_s) (fn : String) (c t : Bool),
      h.state ≠ RECORDER_STATE_IDLE →
      recorder_start h fn c t = (ESP_ERR_INVALID_STATE, h)) ∧
    ∀ h : recorder_handle_s, h.state ≠ RECORDER_STATE_RECORDING →
      recorder_stop h = (ESP_ERR_INVALID_STATE, h, none) :=
  ⟨recorder_start_not_idle, recorder_stop_not_recording⟩

/-- Witness for C6: both rejections on the freshly initialized handle
(`Idle`, so `stop` is rejected) and on a recording handle (`start` is
rejected). -/
theorem wrong_state_guard_witness :
    recorder_start (run (recorder_init ⟨0, 4⟩) [Ev.start "w" true true]).h "x" true true =
      (ESP_ERR_INVALID_STATE, (run (recorder_init ⟨0, 4⟩) [Ev.start "w" true true]).h) ∧
    recorder_stop (recorder_init ⟨0, 4⟩).h =
      (ESP_ERR_INVALID_STATE, (recorder_init ⟨0, 4⟩).h, none) :=
  ⟨wrong_state_guard.1 (run (recorder_init ⟨0, 4⟩) [Ev.start "w" true true]).h "x"
      true true (by decide),
   wrong_state_guard.2 (recorder_init ⟨0, 4⟩).h (by decide)⟩

/-- **C7**: `recorder_feed_audio` with a non-null, non-empty buffer while
`state ≠ Recording` (before any start, after a stop, while stopping) returns
`ESP_OK`, enqueues nothing, finalizes nothing, and leaves the handle —
state and all session fields — unchanged. -/
theorem feed_audio_noop_when_not_recording (h : recorder_handle_s) (bs : List Nat)
    (hbs : bs ≠ []) (hst : h.state ≠ RECORDER_STATE_RECORDING) :
    recorder_feed_audio h (some bs) = (ESP_OK, h, none) :=
  feed_audio_not_recording h bs hbs hst

/-- Witness for C7: feeding `[1, 2]` to the freshly initialized (Idle)
recorder is a no-op returning `ESP_OK`. -/
theorem feed_audio_noop_when_not_recording_witness :
    recorder_feed_audio (recorder_init ⟨0, 4⟩).h (some [1, 2]) =
      (ESP_OK, (recorder_init ⟨0, 4⟩).h, none) :=
  feed_audio_noop_when_not_recording (recorder_init ⟨0, 4⟩).h [1, 2]
    (by decide) (by decide)

/-- **C9** (implicit): `recorder_audio_callback` returns 0 for every input —
null data, non-positive size, null context, and also when the handle is
`Recording` and the bytes are enqueued; it never reports a positive
bytes-consumed count. -/
theorem audio_callback_returns_zero (data : Option (List Nat)) (size : Int)
    (ctx : Option recorder_handle_s) :
    (recorder_audio_callback data size ctx).1 = 0 := by
  unfold recorder_audio_callback
  rcases ctx with _ | h
  · rfl
  · rcases data with _ | bs
    · rfl
    · dsimp only
      by_cases hsz : size ≤ 0
      · rw [if_pos hsz]
      · rw [if_neg hsz]
        by_cases hst : h.state = RECORDER_STATE_RECORDING
        · rw [if_pos hst]
        · rw [if_neg hst]

/-- **C10** (implicit): `recorder_feed_audio` returns
`ESP_ERR_INVALID_ARG` whenever the data pointer is NULL or the size is 0,
in every state; in `Idle` the same call with a valid non-empty buffer
returns `ESP_OK` instead. -/
theorem feed_audio_invalid_arg :
    (∀ h : recorder_handle_s, recorder_feed_audio h none =
      (ESP_ERR_INVALID_ARG, h, none)) ∧
    (∀ h : recorder_handle_s, recorder_feed_audio h (some []) =
      (ESP_ERR_INVALID_ARG, h, none)) ∧
    ∀ (h : recorder_handle_s) (bs : List Nat), h.state = RECORDER_STATE_IDLE →
      bs ≠ [] → (recorder_feed_audio h (some bs)).1 = ESP_OK := by
  refine ⟨fun h => feed_audio_none h, fun h => feed_audio_empty h [] rfl,
    fun h bs hst hbs => ?_⟩
  have hne : h.state ≠ RECORDER_STATE_RECORDING := by
    rw [hst]
    decide
  rw [feed_audio_not_recording h bs hbs hne]

/-- Witness for C10: NULL data, empty data, and a valid feed in `Idle`, on
the freshly initialized handle. -/
theorem feed_audio_invalid_arg_witness :
    recorder_feed_audio (recorder_init ⟨0, 4⟩).h none =
      (ESP_ERR_INVALID_ARG, (recorder_init ⟨0, 4⟩).h, none) ∧
    recorder_feed_audio (recorder_init ⟨0, 4⟩).h (some []) =
      (ESP_ERR_INVALID_ARG, (recorder_init ⟨0, 4⟩).h, none) ∧
    (recorder_feed_audio (recorder_init ⟨0, 4⟩).h (some [9])).1 = ESP_OK :=
  ⟨feed_audio_invalid_arg.1 (recorder_init ⟨0, 4⟩).h,
   feed_audio_invalid_arg.2.1 (recorder_init ⟨0, 4⟩).h,
   feed_audio_invalid_arg.2.2 (recorder_init ⟨0, 4⟩).h [9] (by decide) (by decide)⟩

end Recorder

namespace Recorder

/-! ## The max-size auto-stop scenario (cap 3000, feeds of 1000 bytes) -/

/-- One 1000-byte `feed_audio` call of the scenario. -/
def scenarioFeed : Ev := Ev.feed (some (List.replicate 1000 5))

/-- Scenario state after `init` with `max_file_size_bytes = 3000`, `start`,
and three 1000-byte feeds, the writer task draining after each call. -/
def scenarioPre : Sys :=
  run (recorder_init ⟨3000, 4096⟩)
    [Ev.start "f" true true, scenarioFeed, Ev.task, scenarioFeed, Ev.task,
     scenarioFeed, Ev.task]

/-- Scenario state after the 4th 1000-byte feed (projected size 4000). -/
def scenarioPost : Sys := step scenarioPre scenarioFeed

set_option maxRecDepth 100000 in
/-- **C8 counterexample**: in the scenario (cap 3000, 1000-byte feeds, the
writer draining between calls) the session auto-stops during the 4th call —
the first whose projected size `data_size + size = 4000` exceeds 3000 — and
afterwards `recorder_get_bytes_written` returns 0, which cannot equal 44
plus any payload byte count (`recorder_stop` resets `bytes_written` to 0);
it still returns 0 after the 5th feed. -/
theorem auto_stop_scenario_counterexample :
    scenarioPost.h.state = RECORDER_STATE_IDLE ∧
    recorder_get_bytes_written scenarioPost.h = 0 ∧
    ¬44 ≤ recorder_get_bytes_written scenarioPost.h ∧
    recorder_get_bytes_written (step scenarioPost scenarioFeed).h = 0 := by
  decide

set_option maxRecDepth 100000 in
/-- **C8** (amended): with `max_file_size_bytes = 3000` and five 1000-byte
feeds with the writer task draining between calls: the first three calls
are written (`data_size` reaches 3000, and immediately before the 4th call
`recorder_get_bytes_written` returns `44 + 3000` — the 44-byte header plus
a payload of at most 3000); the 4th call — the first whose projected size
exceeds 3000 — auto-stops the session synchronously (state `Idle`, no
explicit `recorder_stop`), producing a finished file whose data-size field
is `3000 ≤ 3000`; after the auto-stop the counters are reset, so
`recorder_get_bytes_written` returns 0, and the 5th call is a successful
no-op. -/
theorem auto_stop_scenario :
    (scenarioPre.h.state = RECORDER_STATE_RECORDING ∧
      scenarioPre.h.data_size = 3000 ∧
      recorder_get_bytes_written scenarioPre.h = 44 + 3000) ∧
    (scenarioPost.h.state = RECORDER_STATE_IDLE ∧
      recorder_get_bytes_written scenarioPost.h = 0 ∧
      scenarioPost.closed.map (fun c => readU32 c 40) = [3000]) ∧
    ((recorder_feed_audio scenarioPost.h (some (List.replicate 1000 5))).1 = ESP_OK ∧
      (recorder_feed_audio scenarioPost.h (some (List.replicate 1000 5))).2.1.state =
        RECORDER_STATE_IDLE ∧
      (recorder_feed_audio scenarioPost.h (some (List.replicate 1000 5))).2.2 = none) := by
  decide

end Recorder

namespace Recorder

/-! ## Synchronous capped sessions (for the cap-enforcement property) -/

/-- `k` writer-task loop iterations. -/
def drainSteps (s : Sys) : Nat → Sys
  | 0 => s
  | k + 1 => drainSteps (step s Ev.task) k

/-- A synchronous session: after each `feed_audio` call the writer task runs
enough iterations to drain the queue before the next call. -/
def syncRun (s : Sys) : List (List Nat) → Sys
  | [] => s
  | bs :: rest => syncRun (drainSteps (step s (Ev.feed (some bs))) bs.length) rest

theorem step_task_no_task (s : Sys) (hwt : s.h.write_task = false) :
    step s Ev.task = s := by
  unfold step
  dsimp only
  rw [hwt, if_neg (fun hc => Bool.noConfusion hc)]

theorem drainSteps_no_task (s : Sys) (k : Nat) (hwt : s.h.write_task = false) :
    drainSteps s k = s := by
  induction k generalizing s with
  | zero => rfl
  | succ k ih =>
    show drainSteps (step s Ev.task) k = s
    rw [step_task_no_task s hwt, ih s hwt]

/-- Recording-side invariant of a synchronous capped session: `data_size`
plus the queued bytes equals the total kept so far (`tot`), which respects
the cap, and the open file is a header plus `data_size` payload bytes. -/
def SyncRecQ (cfg : recorder_config_t) (s : Sys) (tot : Nat) : Prop :=
  s.h.config = cfg ∧
  s.h.state = RECORDER_STATE_RECORDING ∧
  s.h.stop_requested = false ∧
  s.h.write_task = true ∧
  s.h.data_size + s.h.ring_buffer.length = tot ∧
  tot ≤ cfg.max_file_size_bytes ∧
  ∃ f, s.h.file = some f ∧ f.pos = 44 + s.h.data_size ∧
    f.contents.length = 44 + s.h.data_size

/-- Invariant of a synchronous capped session: every finalized file's
data-size field respects the cap, and the recorder is either still
recording with an empty queue (having kept `tot` bytes) or auto-stopped. -/
def SyncState (cfg : recorder_config_t) (s : Sys) (tot : Nat) : Prop :=
  (∀ c ∈ s.closed, readU32 c 40 ≤ cfg.max_file_size_bytes) ∧
  ((SyncRecQ cfg s tot ∧ s.h.ring_buffer = []) ∨
    (s.h.state = RECORDER_STATE_IDLE ∧ s.h.write_task = false ∧ s.closed ≠ []))

theorem syncRecQ_task (cfg : recorder_config_t) (s : Sys) (tot : Nat)
    (hs : SyncRecQ cfg s tot) :
    SyncRecQ cfg (step s Ev.task) tot ∧
    (step s Ev.task).closed = s.closed ∧
    (step s Ev.task).h.ring_buffer =
      s.h.ring_buffer.drop (min s.h.ring_buffer.length s.h.config.buffer_size) := by
  obtain ⟨hcfg, hst, hsr, hwt, htot, hK, f, hf, hpos, hlen⟩ := hs
  unfold step
  dsimp only
  rw [hwt, if_pos rfl]
  by_cases hn : min s.h.ring_buffer.length s.h.config.buffer_size = 0
  · rw [write_task_step_empty s.h s.last_header_update hsr hn]
    rw [hn, List.drop_zero]
    exact ⟨⟨hcfg, hst, hsr, hwt, htot, hK, f, hf, hpos, hlen⟩, rfl, rfl⟩
  · have hp : f.pos = f.contents.length := by rw [hpos, hlen]
    have hml : min s.h.ring_buffer.length s.h.config.buffer_size ≤
        s.h.ring_buffer.length := Nat.min_le_left _ _
    have hnlen : (s.h.ring_buffer.take
        (min s.h.ring_buffer.length s.h.config.buffer_size)).length =
        min s.h.ring_buffer.length s.h.config.buffer_size := by
      rw [List.length_take]
      omega
    have hwlen : (fwriteB f (s.h.ring_buffer.take
        (min s.h.ring_buffer.length s.h.config.buffer_size))).contents.length =
        44 + (s.h.data_size + min s.h.ring_buffer.length s.h.config.buffer_size) := by
      rw [fwriteB_append f _ hp]
      dsimp only
      rw [List.length_append, hnlen, hlen]
      omega
    have hwpos : (fwriteB f (s.h.ring_buffer.take
        (min s.h.ring_buffer.length s.h.config.buffer_size))).pos =
        44 + (s.h.data_size + min s.h.ring_buffer.length s.h.config.buffer_size) := by
      dsimp only [fwriteB]
      rw [hnlen, hpos]
      omega
    by_cases hpatch : HEADER_UPDATE_INTERVAL ≤
        s.h.data_size + min s.h.ring_buffer.length s.h.config.buffer_size -
          s.last_header_update
    · rw [write_task_step_patch s.h s.last_header_update f hsr hf hn hpatch]
      refine ⟨⟨hcfg, hst, hsr, hwt, ?_, hK, ?_⟩, rfl, rfl⟩
      · dsimp only
        rw [List.length_drop]
        omega
      · refine ⟨_, rfl, ?_, ?_⟩
        · rw [patch_sizes_eq]
          dsimp only
          rw [hwpos]
        · rw [patch_sizes_eq]
          dsimp only
          rw [length_patchedContents _ _ (by rw [hwlen]; omega), hwlen]
    · rw [write_task_step_nopatch s.h s.last_header_update f hsr hf hn hpatch]
      refine ⟨⟨hcfg, hst, hsr, hwt, ?_, hK, ?_⟩, rfl, rfl⟩
      · dsimp only
        rw [List.length_drop]
        omega
      · exact ⟨_, rfl, hwpos, hwlen⟩

theorem syncRecQ_drain (cfg : recorder_config_t) (k : Nat) (s : Sys) (tot : Nat)
    (hs : SyncRecQ cfg s tot) (hbuf : 1 ≤ cfg.buffer_size)
    (hk : s.h.ring_buffer.length ≤ k) :
    SyncRecQ cfg (drainSteps s k) tot ∧
    (drainSteps s k).closed = s.closed ∧
    (drainSteps s k).h.ring_buffer = [] := by
  induction k generalizing s with
  | zero =>
    have : s.h.ring_buffer = [] := List.eq_nil_of_length_eq_zero (by omega)
    exact ⟨hs, rfl, this⟩
  | succ k ih =>
    obtain ⟨h1, hcl, hring⟩ := syncRecQ_task cfg s tot hs
    have hbuf' : s.h.config.buffer_size = cfg.buffer_size := by
      rw [hs.1]
    have hlen : (step s Ev.task).h.ring_buffer.length ≤ k := by
      rw [hring, List.length_drop]
      omega
    obtain ⟨h2, hcl2, hring2⟩ := ih (step s Ev.task) h1 hlen
    refine ⟨h2, ?_, hring2⟩
    show (drainSteps (step s Ev.task) k).closed = s.closed
    rw [hcl2, hcl]

end Recorder

namespace Recorder

theorem syncState_feed (cfg : recorder_config_t) (s : Sys) (tot : Nat) (bs : List Nat)
    (hbs : bs ≠ []) (hfit : bs.length ≤ 16 * cfg.buffer_size)
    (hbuf : 1 ≤ cfg.buffer_size) (hK : 1 ≤ cfg.max_file_size_bytes)
    (hs : SyncState cfg s tot) :
    SyncState cfg (drainSteps (step s (Ev.feed (some bs))) bs.length)
      (tot + bs.length) := by
  obtain ⟨hcl, harm⟩ := hs
  rcases harm with ⟨hq, hring⟩ | ⟨hidle, hwt, hne⟩
  · obtain ⟨hcfg, hst, hsr, hwt, htot, hKtot, f, hf, hpos, hlen⟩ := hq
    rw [hring] at htot
    simp only [List.length_nil, Nat.add_zero] at htot
    by_cases htrig : 0 < s.h.config.max_file_size_bytes ∧
        s.h.config.max_file_size_bytes < s.h.data_size + bs.length
    · -- cap hit: synchronous auto-stop inside this call
      have hn0 : ¬0 < min s.h.ring_buffer.length s.h.config.buffer_size := by
        rw [hring]
        simp
      have hstep : step s (Ev.feed (some bs)) =
          { s with
              h := { s.h with state := RECORDER_STATE_IDLE, stop_requested := true,
                              write_task := false, file := none, bytes_written := 0,
                              data_size := 0 },
              closed := s.closed ++ [patchedContents f.contents s.h.data_size] } := by
        unfold step
        dsimp only
        rw [feed_audio_cap_hit s.h bs hbs hst htrig,
          recorder_stop_recording_empty s.h f hst hf hn0]
        rfl
      have hwt1 : (step s (Ev.feed (some bs))).h.write_task = false := by
        rw [hstep]
      rw [drainSteps_no_task _ _ hwt1, hstep]
      refine ⟨fun c hc => ?_, Or.inr ⟨rfl, rfl, by simp⟩⟩
      rw [List.mem_append] at hc
      rcases hc with hc | hc
      · exact hcl c hc
      · rw [List.mem_singleton] at hc
        subst hc
        rw [readU32_patchedContents_40]
        have hm := Nat.mod_le s.h.data_size 4294967296
        omega
    · -- no trigger: enqueue, then the writer drains everything
      have hfit' : s.h.ring_buffer.length + bs.length ≤ 16 * s.h.config.buffer_size := by
        rw [hring, hcfg]
        simpa using hfit
      have hstep : step s (Ev.feed (some bs)) =
          { s with h := { s.h with ring_buffer := s.h.ring_buffer ++ bs },
                   closed := s.closed ++ [] } := by
        unfold step
        dsimp only
        rw [feed_audio_enqueue s.h bs hbs hst htrig hfit']
        rfl
      have hKtot' : tot + bs.length ≤ cfg.max_file_size_bytes := by
        rcases Nat.lt_or_ge s.h.config.max_file_size_bytes
            (s.h.data_size + bs.length) with hlt | hge
        · exact absurd ⟨by rw [hcfg]; omega, hlt⟩ htrig
        · rw [hcfg] at hge
          omega
      have hq1 : SyncRecQ cfg (step s (Ev.feed (some bs))) (tot + bs.length) := by
        rw [hstep]
        refine ⟨hcfg, hst, hsr, hwt, ?_, hKtot', f, hf, hpos, hlen⟩
        dsimp only
        rw [List.length_append, hring]
        simp only [List.length_nil, Nat.zero_add]
        omega
      have hlen1 : (step s (Ev.feed (some bs))).h.ring_buffer.length ≤ bs.length := by
        rw [hstep]
        dsimp only
        rw [List.length_append, hring]
        simp
      obtain ⟨h2, hcl2, hring2⟩ := syncRecQ_drain cfg bs.length _ _ hq1 hbuf hlen1
      refine ⟨fun c hc => ?_, Or.inl ⟨h2, hring2⟩⟩
      rw [hcl2, hstep] at hc
      dsimp only at hc
      rw [List.append_nil] at hc
      exact hcl c hc
  · -- already auto-stopped: the feed is a no-op and the drain does nothing
    have hstep : step s (Ev.feed (some bs)) =
        { s with h := s.h, closed := s.closed ++ [] } := by
      unfold step
      dsimp only
      rw [feed_audio_not_recording s.h bs hbs (by rw [hidle]; decide)]
      rfl
    have hwt1 : (step s (Ev.feed (some bs))).h.write_task = false := by
      rw [hstep]
      exact hwt
    rw [drainSteps_no_task _ _ hwt1, hstep]
    refine ⟨fun c hc => ?_, Or.inr ⟨hidle, hwt, ?_⟩⟩
    · dsimp only at hc
      rw [List.append_nil] at hc
      exact hcl c hc
    · dsimp only
      rw [List.append_nil]
      exact hne

theorem syncState_run (cfg : recorder_config_t) (feeds : List (List Nat))
    (hbuf : 1 ≤ cfg.buffer_size) (hK : 1 ≤ cfg.max_file_size_bytes) :
    ∀ (s : Sys) (tot : Nat),
      (∀ bs ∈ feeds, bs ≠ [] ∧ bs.length ≤ 16 * cfg.buffer_size) →
      SyncState cfg s tot →
      SyncState cfg (syncRun s feeds) (tot + (feeds.map List.length).sum) := by
  induction feeds with
  | nil =>
    intro s tot _ hs
    simpa using hs
  | cons bs rest ih =>
    intro s tot hfeeds hs
    have hhead := hfeeds bs (List.mem_cons_self bs rest)
    have h1 := syncState_feed cfg s tot bs hhead.1 hhead.2 hbuf hK hs
    have h2 := ih (drainSteps (step s (Ev.feed (some bs))) bs.length) (tot + bs.length)
      (fun b hb => hfeeds b (List.mem_cons_of_mem _ hb)) h1
    show SyncState cfg (syncRun (drainSteps (step s (Ev.feed (some bs))) bs.length) rest)
      (tot + ((bs :: rest).map List.length).sum)
    rw [List.map_cons, List.sum_cons, ← Nat.add_assoc]
    exact h2

end Recorder

namespace Recorder

theorem recorder_stop_state_idle (h : recorder_handle_s)
    (hst : h.state = RECORDER_STATE_RECORDING) :
    (recorder_stop h).2.1.state = RECORDER_STATE_IDLE := by
  unfold recorder_stop
  rw [if_neg (by simp [hst])]

theorem syncState_start (cfg : recorder_config_t) (fn : String) :
    SyncState cfg (step (recorder_init cfg) (Ev.start fn true true)) 0 := by
  refine ⟨fun c hc => absurd hc (List.not_mem_nil c), Or.inl ⟨?_, rfl⟩⟩
  exact ⟨rfl, rfl, rfl, rfl, rfl, Nat.zero_le _, initialFile, rfl, rfl, rfl⟩

/-- **C3** (amended): with cap `K = max_file_size_bytes > 0`, a
`recorder_feed_audio` call for which `data_size + size` would exceed `K`
stops the session synchronously inside the call (the resulting state is
`Idle`), still returns `ESP_OK`, and does not write or enqueue that call's
bytes — the call's entire effect is exactly that of `recorder_stop`.
Consequently, for every *synchronous* session — one in which the writer
task fully drains the queue after each feed call, so that `data_size`
counts all kept bytes — in which each fed buffer is non-empty and fits the
queue and more than `K` bytes are fed in total, the session ends in `Idle`
without an explicit `recorder_stop`, a file is finished, and every finished
file's data-size field is at most `K`.  (Without the synchronous-drain
condition the consequence fails: `data_size` lags behind the fed bytes, so
the cap check may never fire.) -/
theorem cap_enforcement :
    (∀ (h : recorder_handle_s) (bs : List Nat), bs ≠ [] →
      h.state = RECORDER_STATE_RECORDING →
      0 < h.config.max_file_size_bytes →
      h.config.max_file_size_bytes < h.data_size + bs.length →
      recorder_feed_audio h (some bs) =
        (ESP_OK, (recorder_stop h).2.1, (recorder_stop h).2.2) ∧
      (recorder_feed_audio h (some bs)).2.1.state = RECORDER_STATE_IDLE) ∧
    ∀ (cfg : recorder_config_t) (fn : String) (feeds : List (List Nat)),
      1 ≤ cfg.buffer_size → 1 ≤ cfg.max_file_size_bytes →
      (∀ bs ∈ feeds, bs ≠ [] ∧ bs.length ≤ 16 * cfg.buffer_size) →
      cfg.max_file_size_bytes < (feeds.map List.length).sum →
      (syncRun (step (recorder_init cfg) (Ev.start fn true true)) feeds).h.state =
        RECORDER_STATE_IDLE ∧
      (syncRun (step (recorder_init cfg) (Ev.start fn true true)) feeds).closed ≠ [] ∧
      ∀ c ∈ (syncRun (step (recorder_init cfg) (Ev.start fn true true)) feeds).closed,
        readU32 c 40 ≤ cfg.max_file_size_bytes := by
  constructor
  · intro h bs hbs hst hK hover
    have heq := feed_audio_cap_hit h bs hbs hst ⟨hK, hover⟩
    refine ⟨heq, ?_⟩
    rw [heq]
    exact recorder_stop_state_idle h hst
  · intro cfg fn feeds hbuf hK hfeeds htot
    have hs := syncState_run cfg feeds hbuf hK
      (step (recorder_init cfg) (Ev.start fn true true)) 0 hfeeds
      (syncState_start cfg fn)
    rw [Nat.zero_add] at hs
    obtain ⟨hcl, harm⟩ := hs
    rcases harm with ⟨hq, -⟩ | ⟨hidle, -, hne⟩
    · exfalso
      have h1 := hq.2.2.2.2.1
      have h2 := hq.2.2.2.2.2.1
      omega
    · exact ⟨hidle, hne, hcl⟩

/-- **C3 counterexample**: with `max_file_size_bytes = 2` and
`buffer_size = 4`, two feeds of 2 bytes each (4 > 2 bytes total) both
succeed — the cap check compares against `data_size`, which still counts 0
written bytes while the writer task has not drained — so the recorder is
still `Recording` (no auto-stop, not `Idle`), and an explicit stop then
finishes a file whose data-size field is 4 > 2. -/
theorem cap_enforcement_counterexample :
    midOk (step (recorder_init ⟨2, 4⟩) (Ev.start "f" true true))
      [Ev.feed (some [1, 1]), Ev.feed (some [2, 2])] = true ∧
    (run (step (recorder_init ⟨2, 4⟩) (Ev.start "f" true true))
      [Ev.feed (some [1, 1]), Ev.feed (some [2, 2])]).h.state =
        RECORDER_STATE_RECORDING ∧
    (step (run (step (recorder_init ⟨2, 4⟩) (Ev.start "f" true true))
        [Ev.feed (some [1, 1]), Ev.feed (some [2, 2])]) Ev.stop).closed.map
      (fun c => readU32 c 40) = [4] := by
  decide

/-- Witness for C3: part one at a freshly started recorder with cap 2 fed 3
bytes; part two at a synchronous session with cap 2 and feeds `[1,1]`,
`[2]`. -/
theorem cap_enforcement_witness :
    (recorder_feed_audio (run (recorder_init ⟨2, 4⟩) [Ev.start "w" true true]).h
        (some [1, 2, 3]) =
      (ESP_OK,
        (recorder_stop (run (recorder_init ⟨2, 4⟩) [Ev.start "w" true true]).h).2.1,
        (recorder_stop (run (recorder_init ⟨2, 4⟩) [Ev.start "w" true true]).h).2.2) ∧
      (recorder_feed_audio (run (recorder_init ⟨2, 4⟩) [Ev.start "w" true true]).h
        (some [1, 2, 3])).2.1.state = RECORDER_STATE_IDLE) ∧
    ((syncRun (step (recorder_init ⟨2, 4⟩) (Ev.start "w" true true))
        [[1, 1], [2]]).h.state = RECORDER_STATE_IDLE ∧
      (syncRun (step (recorder_init ⟨2, 4⟩) (Ev.start "w" true true))
        [[1, 1], [2]]).closed ≠ [] ∧
      ∀ c ∈ (syncRun (step (recorder_init ⟨2, 4⟩) (Ev.start "w" true true))
        [[1, 1], [2]]).closed, readU32 c 40 ≤ (⟨2, 4⟩ : recorder_config_t).max_file_size_bytes) :=
  ⟨cap_enforcement.1 (run (recorder_init ⟨2, 4⟩) [Ev.start "w" true true]).h [1, 2, 3]
      (by decide) (by decide) (by decide) (by decide),
   cap_enforcement.2 ⟨2, 4⟩ "w" [[1, 1], [2]] (by decide) (by decide) (by decide)
      (by decide)⟩

end Recorder
